import Mathlib

/-!
# Hungry_Fish_3D : the model-loading pipeline of `src/main.cpp`

A shallow embedding of `Model::init`, `Model::loadModel`, `Model::processNode`,
`Model::processMesh`, `Model::loadMaterialTextures` and `loadTexture`.

* `std::string` is a `List Char`; `npos` is `none`.
* The OpenGL context and `std::cout` form the explicit state `World`:
  `glGenTextures` hands out the names 1, 2, 3, ... (never 0, never a name twice),
  every `glTexImage2D` call is recorded in `World.uploads`.
* The importer, the image decoder and `aiTextureTypeToString` are external
  collaborators, gathered in `Env`.
* A C++ exception (`std::stoi`) is the `Except.error` of `Except Exn`.
* A `float` is carried as its IEEE-754 bit pattern (the loader only copies floats);
  `0.0f` is the pattern `0`.

The game logic of `Application::initFishes`, `Application::updateFishes` and
`Application::renderHUD` is embedded as well; its float arithmetic and `rand()` are the
collaborators of `GameEnv`.
-/

namespace HungryFish

/-! ## std::string -/

/-- A `std::string`, as its sequence of characters. -/
abbrev Str := List Char

/-- The call `s.find(c)` for a character: index of the first occurrence, `none` for `npos`. -/
def findChar : Str → Char → Option Nat
  | [], _ => none
  | x :: xs, c => if x = c then some 0 else (findChar xs c).map (· + 1)

/-- The call `s.find(pat)` for a string: index of the first occurrence, `none` for `npos`. -/
def findStr : Str → Str → Option Nat
  | [], pat => if pat.isEmpty then some 0 else none
  | x :: xs, pat =>
    if pat.isPrefixOf (x :: xs) then some 0 else (findStr xs pat).map (· + 1)

/-- The call `s.find_last_of(c)`: index of the last occurrence of `c`, `none` for `npos`. -/
def find_last_of (s : Str) (c : Char) : Option Nat :=
  (findChar s.reverse c).map (fun k => s.length - 1 - k)

/-- The call `s.substr(pos, count)`; a count of `none` is `npos` (up to the end of the string). -/
def substr (s : Str) (pos : Nat) (count : Option Nat) : Str :=
  match count with
  | none => s.drop pos
  | some n => (s.drop pos).take n

/-- The value of `pos + 1` for a `size_t` position: `npos + 1` wraps around to 0. -/
def posSucc : Option Nat → Nat
  | some k => k + 1
  | none => 0

/-- C++ exceptions that can leave the loader, and the out-of-bounds read of an importer
array (undefined behaviour, which a well-formed scene never triggers). -/
inductive Exn where
  | invalid_argument
  | out_of_range
  | bad_access
  deriving DecidableEq, Repr

/-- The function `isspace` in the C locale. -/
def isspace (c : Char) : Bool :=
  c = ' ' || c = '\t' || c = '\n' || c = '\x0b' || c = '\x0c' || c = '\r'

/-- The function `isdigit`. -/
def isdigit (c : Char) : Bool := '0' ≤ c && c ≤ '9'

/-- Value of a run of decimal digits. -/
def digitsVal (ds : Str) : Nat :=
  ds.foldl (fun acc c => 10 * acc + (c.toNat - 48)) 0

/-- The call `std::stoi(s)` (base 10): skip leading white space, read an optional sign and the
longest run of digits; `invalid_argument` when there is no digit, `out_of_range` when the
value does not fit an `int`. -/
def stoi (s : Str) : Except Exn Int :=
  let s1 := s.dropWhile isspace
  let signed : Bool × Str :=
    match s1 with
    | '-' :: r => (true, r)
    | '+' :: r => (false, r)
    | _ => (false, s1)
  let ds := signed.2.takeWhile isdigit
  if ds.isEmpty then .error .invalid_argument
  else
    let v : Int := if signed.1 then - (digitsVal ds : Int) else (digitsVal ds : Int)
    if v < -2147483648 ∨ 2147483647 < v then .error .out_of_range else .ok v

/-! ## Data model -/

/-- A `float`, as its bit pattern. -/
abbrev F32 := Nat

/-- The types `glm::vec3` and `aiVector3D`. -/
structure Vec3 where
  x : F32
  y : F32
  z : F32
  deriving DecidableEq, Repr

/-- The type `glm::vec2`. -/
structure Vec2 where
  x : F32
  y : F32
  deriving DecidableEq, Repr

/-- The vertex record filled by `processMesh`. -/
structure Vertex where
  Position : Vec3
  Normal : Vec3
  TexCoords : Vec2
  deriving DecidableEq, Repr

/-- The texture record `{id, type, path}`. -/
structure Texture where
  id : Nat
  type : Str
  path : Str
  deriving DecidableEq, Repr

/-- The mesh record built by `Mesh(vertices, indices, textures)`. -/
structure Mesh where
  vertices : List Vertex
  indices : List Nat
  textures : List Texture
  deriving DecidableEq, Repr

/-- The `Model` class: its mesh list. -/
structure Model where
  meshes : List Mesh
  deriving DecidableEq, Repr

/-! ## The importer's scene graph -/

/-- The type `aiTexture`: an embedded texture (`mHeight = 0` marks a compressed blob of `mWidth`
bytes); `pcData` may be a null pointer. -/
structure aiTexture where
  mWidth : Nat
  mHeight : Nat
  pcData : Option (List Nat)
  deriving DecidableEq, Repr

/-- The type `aiMaterial`, seen through `GetTextureCount(type)` and `GetTexture(type, i, &str)`:
`textures type` lists the reference strings bound in slot `type`. -/
structure aiMaterial where
  textures : Nat → List Str

/-- The type `aiMesh`: `mNumVertices` is the length of `mVertices`; `mNormals` and the first UV
channel may be null. -/
structure aiMesh where
  mVertices : List Vec3
  mNormals : Option (List Vec3)
  mTextureCoords0 : Option (List Vec3)
  mFaces : List (List Nat)
  mMaterialIndex : Nat

/-- The type `aiNode`: mesh indices and children. -/
inductive aiNode where
  | mk (mMeshes : List Nat) (mChildren : List aiNode)

/-- The type `aiScene`. -/
structure aiScene where
  mFlags : Nat
  mRootNode : Option aiNode
  mMeshes : List aiMesh
  mMaterials : List aiMaterial
  mTextures : List (Option aiTexture)

/-- The flag `AI_SCENE_FLAGS_INCOMPLETE`. -/
def AI_SCENE_FLAGS_INCOMPLETE : Nat := 1

/-- The slot `aiTextureType_NONE`, the first slot of the enumeration. -/
def aiTextureType_NONE : Nat := 0
/-- The slot `aiTextureType_DIFFUSE`. -/
def aiTextureType_DIFFUSE : Nat := 1
/-- The slot `aiTextureType_SPECULAR`. -/
def aiTextureType_SPECULAR : Nat := 2
/-- The slot `aiTextureType_HEIGHT`. -/
def aiTextureType_HEIGHT : Nat := 5
/-- The slot `aiTextureType_UNKNOWN`, the last slot visited by the loader. -/
def aiTextureType_UNKNOWN : Nat := 18

/-! ## External collaborators and the world -/

/-- What the image decoder returns on success. -/
structure Image where
  width : Nat
  height : Nat
  nrComponents : Nat
  deriving DecidableEq, Repr

/-- Pixel formats used by the loader. -/
inductive GLFormat where
  | RED
  | RGB
  | RGBA
  deriving DecidableEq, Repr

/-- One `glTexImage2D` call; `format = none` is an indeterminate (never assigned) value. -/
structure Upload where
  id : Nat
  format : Option GLFormat
  width : Nat
  height : Nat
  deriving DecidableEq, Repr

/-- Lines written to `std::cout`. -/
inductive Diag where
  | assimpError
  | textureFailed (path : Str)
  deriving DecidableEq, Repr

/-- The OpenGL context and the diagnostic stream. `names` counts the texture names
generated so far. -/
structure World where
  names : Nat
  uploads : List Upload
  cout : List Diag
  deriving DecidableEq, Repr

/-- The importer, the image decoder and the importer's type-name table. -/
structure Env where
  ReadFile : Str → Option aiScene
  stbi_load : Str → Option Image
  stbi_load_from_memory : Option (List Nat) → Nat → Option Image
  aiTextureTypeToString : Nat → Str

/-- The call `glGenTextures(1, &id)`: a fresh, non-zero name. -/
def glGenTextures (w : World) : Nat × World :=
  (w.names + 1, { w with names := w.names + 1 })

/-- The call `glTexImage2D` (with the mipmap and parameter calls that follow it). -/
def glTexImage2D (w : World) (id : Nat) (format : Option GLFormat) (width height : Nat) :
    World :=
  { w with uploads := w.uploads ++ [⟨id, format, width, height⟩] }

/-! ## loadTexture (lines 653-688) -/

/-- The `format` local of `loadTexture`: assigned only for 1, 3 and 4 components. -/
def loadTextureFormat (nrComponents : Nat) : Option GLFormat :=
  if nrComponents = 1 then some .RED
  else if nrComponents = 3 then some .RGB
  else if nrComponents = 4 then some .RGBA
  else none

/-- The function `loadTexture(path)`: the name is generated before the decode and returned whatever
the decode gives. -/
def loadTexture (env : Env) (path : Str) (w : World) : Nat × World :=
  let (textureID, w1) := glGenTextures w
  match env.stbi_load path with
  | some img =>
    (textureID, glTexImage2D w1 textureID (loadTextureFormat img.nrComponents)
      img.width img.height)
  | none => (textureID, { w1 with cout := w1.cout ++ [.textureFailed path] })

/-! ## Loops that may be left by an exception -/

/-- A `for` loop over `xs` whose body may throw: the state is threaded through the
iterations in order and the first exception leaves the loop. -/
def loopE {σ α : Type} (body : σ → α → Except Exn σ) : σ → List α → Except Exn σ
  | s, [] => .ok s
  | s, x :: xs =>
    match body s x with
    | .error e => .error e
    | .ok s1 => loopE body s1 xs

/-! ## Model::loadMaterialTextures (lines 104-218) -/

/-- The locals of the two loops: the returned vector `textures`, the cache passed by
reference, and the world. -/
structure TexState where
  textures : List Texture
  local_textures_loaded : List Texture
  world : World
  deriving DecidableEq, Repr

/-- The de-duplication scan (lines 133-144): the first cache entry whose `path` equals
`texPath`. -/
def cacheLookup (cache : List Texture) (texPath : Str) : Option Texture :=
  cache.find? (fun tex => decide (tex.path = texPath))

/-- The identity rewrite of lines 126-127. -/
def normalizeKey (modelPath str : Str) : Str :=
  if !str.isEmpty && str.head? == some '*' then modelPath ++ str else str

/-- The format chosen by the embedded upload (line 179). -/
def embeddedFormat (nrComponents : Nat) : GLFormat :=
  if nrComponents = 3 then .RGB else .RGBA

/-- The test of line 149 that sends an identity to the embedded branch. -/
def isEmbeddedKey (modelPath texPath : Str) : Bool :=
  !texPath.isEmpty && (findStr texPath modelPath).isSome && (findChar texPath '*').isSome

/-- Lines 157-174: the pixel data of an embedded texture, `none` for a null `data`. -/
def embeddedData (env : Env) (aTex : aiTexture) : Option Image :=
  if aTex.mHeight = 0 then env.stbi_load_from_memory aTex.pcData aTex.mWidth
  else aTex.pcData.map (fun _ => ⟨aTex.mWidth, aTex.mHeight, 4⟩)

/-- Lines 152-198: the embedded branch once the index is parsed. -/
def loadEmbedded (env : Env) (scene : aiScene) (typeName texPath : Str) (texIndex : Int)
    (st : TexState) : TexState :=
  if 0 ≤ texIndex ∧ texIndex < (scene.mTextures.length : Int) then
    match scene.mTextures.get? texIndex.toNat with
    | some (some aTex) =>
      match embeddedData env aTex with
      | some img =>
        let (texID, w1) := glGenTextures st.world
        let w2 := glTexImage2D w1 texID (some (embeddedFormat img.nrComponents))
          img.width img.height
        let texture : Texture := ⟨texID, typeName, texPath⟩
        { textures := st.textures ++ [texture],
          local_textures_loaded := st.local_textures_loaded ++ [texture],
          world := w2 }
      | none => st
    | _ => st
  else st

/-- The path handed to `loadTexture` (lines 203-205). -/
def fullPath (directory texPath : Str) : Str :=
  if (findStr texPath [':']).isNone && !directory.isEmpty then
    directory ++ ['/'] ++ texPath
  else texPath

/-- Lines 201-213: the external branch. -/
def loadExternal (env : Env) (directory typeName texPath : Str) (st : TexState) :
    TexState :=
  let (texID, w1) := loadTexture env (fullPath directory texPath) st.world
  if texID ≠ 0 then
    let texture : Texture := ⟨texID, typeName, texPath⟩
    { textures := st.textures ++ [texture],
      local_textures_loaded := st.local_textures_loaded ++ [texture],
      world := w1 }
  else { st with world := w1 }

/-- The body of the inner loop (lines 121-213) for one bound reference `str`. -/
def resolveTexture (env : Env) (scene : aiScene) (directory modelPath typeName str : Str)
    (st : TexState) : Except Exn TexState :=
  let texPath := normalizeKey modelPath str
  match cacheLookup st.local_textures_loaded texPath with
  | some tex =>
    .ok { st with textures := st.textures ++ [⟨tex.id, typeName, texPath⟩] }
  | none =>
    if isEmbeddedKey modelPath texPath then
      match stoi (substr texPath (posSucc (findChar texPath '*')) none) with
      | .error e => .error e
      | .ok texIndex => .ok (loadEmbedded env scene typeName texPath texIndex st)
    else if !texPath.isEmpty then
      .ok (loadExternal env directory typeName texPath st)
    else .ok st

/-- The inner loop (lines 119-214) over the references bound in one slot. -/
def loadSlot (env : Env) (scene : aiScene) (mat : aiMaterial) (directory modelPath : Str)
    (st : TexState) (typeInt : Nat) : Except Exn TexState :=
  if (mat.textures typeInt).length = 0 then .ok st
  else
    loopE
      (fun s str =>
        resolveTexture env scene directory modelPath (env.aiTextureTypeToString typeInt) str s)
      st (mat.textures typeInt)

/-- The slots visited by the outer loop, `aiTextureType_NONE` to `aiTextureType_UNKNOWN`
inclusive. -/
def slotRange : List Nat :=
  List.range' aiTextureType_NONE (aiTextureType_UNKNOWN + 1 - aiTextureType_NONE)

/-- The method `Model::loadMaterialTextures`: the final `TexState` holds the returned vector, the
cache as left behind, and the world. -/
def loadMaterialTextures (env : Env) (scene : aiScene) (mat : aiMaterial) (directory : Str)
    (local_textures_loaded : List Texture) (modelPath : Str) (w : World) :
    Except Exn TexState :=
  loopE (loadSlot env scene mat directory modelPath) ⟨[], local_textures_loaded, w⟩
    slotRange

/-! ## Model::processMesh (lines 220-275) -/

/-- The method `aiMesh::HasNormals()`. -/
def aiMesh.HasNormals (mesh : aiMesh) : Bool :=
  mesh.mNormals.isSome && decide (0 < mesh.mVertices.length)

/-- The zero vector `(0.0f, 0.0f, 0.0f)`. -/
def Vec3.zero : Vec3 := ⟨0, 0, 0⟩

/-- One iteration of the vertex loop (lines 227-257), for vertex slot `i` holding `p`. -/
def buildVertex (mesh : aiMesh) (i : Nat) (p : Vec3) : Vertex :=
  { Position := ⟨p.x, p.y, p.z⟩,
    Normal :=
      if mesh.HasNormals then
        let n := ((mesh.mNormals.getD []).getD i Vec3.zero)
        ⟨n.x, n.y, n.z⟩
      else ⟨0, 0, 0⟩,
    TexCoords :=
      match mesh.mTextureCoords0 with
      | some uv => ⟨(uv.getD i Vec3.zero).x, (uv.getD i Vec3.zero).y⟩
      | none => ⟨0, 0⟩ }

/-- The vertex loop (lines 226-258). -/
def processVertices (mesh : aiMesh) : List Vertex :=
  (List.range mesh.mVertices.length).map
    (fun i => buildVertex mesh i (mesh.mVertices.getD i Vec3.zero))

/-- The index loop (lines 261-265). -/
def processIndices (mesh : aiMesh) : List Nat :=
  mesh.mFaces.foldl (fun indices face => indices ++ face) []

/-- The method `Model::processMesh`. The local `textures` starts empty, is handed to
`loadMaterialTextures` as its cache, and then receives the returned vector at its end. -/
def processMesh (env : Env) (scene : aiScene) (directory path : Str) (mesh : aiMesh)
    (w : World) : Except Exn (Mesh × World) :=
  match scene.mMaterials.get? mesh.mMaterialIndex with
  | none => .error .bad_access
  | some material =>
    match loadMaterialTextures env scene material directory [] path w with
    | .error e => .error e
    | .ok st =>
      .ok (⟨processVertices mesh, processIndices mesh,
            st.local_textures_loaded ++ st.textures⟩, st.world)

/-! ## Model::processNode, Model::loadModel, Model::init (lines 61-102) -/

/-- One iteration of the mesh loop of `processNode` (lines 94-95). -/
def pushMesh (env : Env) (scene : aiScene) (directory path : Str) (st : Model × World)
    (idx : Nat) : Except Exn (Model × World) :=
  match scene.mMeshes.get? idx with
  | none => .error .bad_access
  | some mesh =>
    match processMesh env scene directory path mesh st.2 with
    | .error e => .error e
    | .ok (m, w) => .ok (⟨st.1.meshes ++ [m]⟩, w)

mutual
/-- The method `Model::processNode`. -/
def processNode (env : Env) (scene : aiScene) (directory path : Str) :
    aiNode → Model × World → Except Exn (Model × World)
  | .mk mMeshes mChildren, st =>
    match loopE (pushMesh env scene directory path) st mMeshes with
    | .error e => .error e
    | .ok st1 => processChildren env scene directory path mChildren st1
/-- The child loop of `processNode` (lines 99-101). -/
def processChildren (env : Env) (scene : aiScene) (directory path : Str) :
    List aiNode → Model × World → Except Exn (Model × World)
  | [], st => .ok st
  | c :: cs, st =>
    match processNode env scene directory path c st with
    | .error e => .error e
    | .ok st1 => processChildren env scene directory path cs st1
end

/-- The `directory` local of `loadModel` (line 87). -/
def assetDirectory (path : Str) : Str :=
  substr path 0 (find_last_of path '/')

/-- The method `Model::loadModel`. -/
def loadModel (env : Env) (path : Str) (st : Model × World) : Except Exn (Model × World) :=
  match env.ReadFile path with
  | none => .ok (st.1, { st.2 with cout := st.2.cout ++ [.assimpError] })
  | some scene =>
    if scene.mFlags &&& AI_SCENE_FLAGS_INCOMPLETE ≠ 0 then
      .ok (st.1, { st.2 with cout := st.2.cout ++ [.assimpError] })
    else
      match scene.mRootNode with
      | none => .ok (st.1, { st.2 with cout := st.2.cout ++ [.assimpError] })
      | some root => processNode env scene (assetDirectory path) path root st

/-- The method `Model::init`. -/
def Model.init (env : Env) (path : Str) (m : Model) (w : World) :
    Except Exn (Bool × Model × World) :=
  match loadModel env path (m, w) with
  | .error e => .error e
  | .ok (m1, w1) => .ok (true, m1, w1)

/-- A freshly constructed `Model`. -/
def Model.fresh : Model := ⟨[]⟩

/-! ## The pre-order flattening of the specification -/

mutual
/-- Depth-first pre-order list of mesh references: the indices of the node itself, in
index order, then those of each child, in child-list order. -/
def preorder : aiNode → List Nat
  | .mk mMeshes mChildren => mMeshes ++ preorderList mChildren
/-- The pre-order lists of a child list, one child after the other. -/
def preorderList : List aiNode → List Nat
  | [] => []
  | c :: cs => preorder c ++ preorderList cs
end

/-! ## Provenance of a built mesh -/

/-- The mesh built for mesh reference `i`: it comes from the scene mesh at index `i`. -/
def BuiltFrom (scene : aiScene) (i : Nat) (mesh : Mesh) : Prop :=
  ∃ src, scene.mMeshes.get? i = some src ∧ mesh.vertices = processVertices src ∧
    mesh.indices = processIndices src

/-! ## Ownership of handles -/

/-- Uploads recorded in `w` after the moment `w0`. -/
def newUploads (w0 w : World) : List Upload :=
  w.uploads.drop w0.uploads.length

/-- A texture record belongs to the load that ran from world `w0` to world `w`: its
handle was generated in between, and when its identity is an embedded key, or names an
external file that decodes, an upload for that handle was made in between. -/
def Owned (env : Env) (directory modelPath : Str) (w0 w : World) (t : Texture) : Prop :=
  w0.names < t.id ∧ t.id ≤ w.names ∧
    ((isEmbeddedKey modelPath t.path = true ∨
        (env.stbi_load (fullPath directory t.path)).isSome = true) →
      ∃ u ∈ newUploads w0 w, u.id = t.id)

/-- The world `w1` is a later state of `w`: names were only added, uploads only appended. -/
def World.Ext (w w1 : World) : Prop :=
  w.names ≤ w1.names ∧ ∃ l, w1.uploads = w.uploads ++ l

/-- Invariant of the texture loops of a load that started in world `w0`. -/
def TexInv (env : Env) (directory modelPath : Str) (w0 : World) (st : TexState) : Prop :=
  World.Ext w0 st.world ∧
    (∀ t ∈ st.textures, Owned env directory modelPath w0 st.world t) ∧
    (∀ t ∈ st.local_textures_loaded, Owned env directory modelPath w0 st.world t)

/-- Invariant of the mesh list of a load that started in world `w0`. -/
def ModelInv (env : Env) (directory modelPath : Str) (w0 : World) (st : Model × World) :
    Prop :=
  World.Ext w0 st.2 ∧
    ∀ mesh ∈ st.1.meshes, ∀ t ∈ mesh.textures, Owned env directory modelPath w0 st.2 t

/-! ## Consistency of the cache -/

/-- Invariant of the texture loops: the cache maps an identity to one handle, and every
returned record repeats the handle of the cache entry of its identity. -/
def CacheInv (st : TexState) : Prop :=
  (∀ c1 ∈ st.local_textures_loaded, ∀ c2 ∈ st.local_textures_loaded,
      c1.path = c2.path → c1.id = c2.id) ∧
    (∀ t ∈ st.textures, ∃ c ∈ st.local_textures_loaded, c.path = t.path ∧ c.id = t.id)

/-! ## The fish game (lines 41-46 and 438-499) -/

/-- The `Fish` record. -/
structure Fish where
  position : Vec3
  spawnCenter : Vec3
  target : Vec3
  speed : F32
  deriving DecidableEq, Repr

/-- The float arithmetic of the game and the C library's `rand()`, whose state is a
`Nat`: `spawnFish` is the fish built from seven draws (lines 441-454), `moveFish` the move
of one fish for a frame time, with a new target drawn when the old one is reached (lines
465-474), `inCatchRadius` the test `glm::length(camera.Position - f.position) <
CATCH_RADIUS` (lines 476-477). -/
structure GameEnv where
  spawnFish : Nat → Fish × Nat
  moveFish : F32 → Fish → Nat → Fish × Nat
  inCatchRadius : Vec3 → Fish → Bool

/-- The fields of `Application` that the game logic reads and writes, with the state of
`rand()`. -/
structure Application where
  cameraPosition : Vec3
  gameOver : Bool
  fishes : List Fish
  fishCount : Int
  randState : Nat
  deriving DecidableEq, Repr

/-- The constant `GENERATE_FISH`. -/
def GENERATE_FISH : Nat := 1

/-- A freshly constructed `Application`: camera at the origin, `gameOver = false`, no
fish, `fishCount = 0`; `rand()` is in its start state. -/
def Application.fresh : Application := ⟨⟨0, 0, 0⟩, false, [], 0, 1⟩

/-- The state change of `Application::renderHUD` (the printing and the window title are
left out). -/
def renderHUD (app : Application) : Application :=
  if app.fishCount = 0 then { app with gameOver := true } else app

/-- The spawn loop of `initFishes` (lines 440-456), with the number of iterations left. -/
def spawnLoop (genv : GameEnv) : Nat → Application → Application
  | 0, app => app
  | n + 1, app =>
    let spawned := genv.spawnFish app.randState
    spawnLoop genv n { app with fishes := app.fishes ++ [spawned.1], randState := spawned.2 }

/-- The method `Application::initFishes`; `seed` is the value of `time(0)` given to
`srand`. -/
def initFishes (genv : GameEnv) (seed : Nat) (app : Application) : Application :=
  let app1 := spawnLoop genv GENERATE_FISH { app with randState := seed }
  renderHUD { app1 with fishCount := (GENERATE_FISH : Int) }

/-- The loop of `Application::updateFishes` from index `i` on: the fish at `i` is moved in
place; when it is within the catch radius it is erased, `fishCount` is decremented, the
HUD is rendered and `i` stays; otherwise `i` advances. -/
def updateLoop (genv : GameEnv) (deltaTime : F32) (i : Nat) (app : Application) :
    Application :=
  if h : i < app.fishes.length then
    let moved := genv.moveFish deltaTime (app.fishes.get ⟨i, h⟩) app.randState
    let fishes1 := app.fishes.set i moved.1
    if genv.inCatchRadius app.cameraPosition moved.1 then
      updateLoop genv deltaTime i
        (renderHUD { app with
          fishes := fishes1.eraseIdx i, fishCount := app.fishCount - 1,
          randState := moved.2 })
    else
      updateLoop genv deltaTime (i + 1) { app with fishes := fishes1, randState := moved.2 }
  else app
termination_by app.fishes.length - i
decreasing_by
  · have hud : ∀ a : Application, (renderHUD a).fishes = a.fishes := by
      intro a
      unfold renderHUD
      split <;> rfl
    simp only [hud, List.length_eraseIdx, List.length_set]
    simp [h]
    omega
  · simp only [List.length_set]
    omega

/-- The method `Application::updateFishes`. -/
def updateFishes (genv : GameEnv) (deltaTime : F32) (app : Application) : Application :=
  updateLoop genv deltaTime 0 app

/-- The fish of a list after each has made its move for the frame, in order, with the
state of `rand()` handed from one fish to the next. -/
def moveAll (genv : GameEnv) (deltaTime : F32) : List Fish → Nat → List Fish × Nat
  | [], r => ([], r)
  | f :: fs, r =>
    let moved := genv.moveFish deltaTime f r
    let rest := moveAll genv deltaTime fs moved.2
    (moved.1 :: rest.1, rest.2)

/-- The counter agrees with the list, and the game is over exactly when no fish is left. -/
def GameInv (app : Application) : Prop :=
  app.fishCount = (app.fishes.length : Int) ∧ (app.gameOver = true ↔ app.fishes.length = 0)

/-- The game states reached from a fresh `Application` by one `initFishes` call and then
any number of `updateFishes` steps, the camera being anywhere at each step. -/
inductive Reachable (genv : GameEnv) : Application → Prop
  | init (seed : Nat) : Reachable genv (initFishes genv seed Application.fresh)
  | step (app : Application) (cam : Vec3) (deltaTime : F32) :
      Reachable genv app →
      Reachable genv (updateFishes genv deltaTime { app with cameraPosition := cam })

/-! ## Example assets -/

/-- The table of the importer's `aiTextureTypeToString`. -/
def exTypeName (t : Nat) : Str :=
  match t with
  | 0 => "n/a".toList
  | 1 => "Diffuse".toList
  | 2 => "Specular".toList
  | 3 => "Ambient".toList
  | 4 => "Emissive".toList
  | 5 => "Height".toList
  | 6 => "Normals".toList
  | 7 => "Shininess".toList
  | 8 => "Opacity".toList
  | 9 => "Displacement".toList
  | 10 => "Lightmap".toList
  | 11 => "Reflection".toList
  | 12 => "BaseColor".toList
  | 13 => "NormalCamera".toList
  | 14 => "EmissionColor".toList
  | 15 => "Metalness".toList
  | 16 => "DiffuseRoughness".toList
  | 17 => "AmbientOcclusion".toList
  | _ => "Unknown".toList

/-- An in-memory decoder that accepts every non-empty blob as a 2x2 RGBA image. -/
def exMemDecoder (data : Option (List Nat)) (_len : Nat) : Option Image :=
  match data with
  | some (_ :: _) => some ⟨2, 2, 4⟩
  | _ => none

/-- An environment with the given asset files and image files. -/
def exEnv (assets : Str → Option aiScene) (images : Str → Option Image) : Env :=
  ⟨assets, images, exMemDecoder, exTypeName⟩

/-- A world in which nothing has been generated, uploaded or printed. -/
def World.empty : World := ⟨0, [], []⟩

/-- A one-triangle mesh without normals and without UV channel, using material 0. -/
def exTriangle : aiMesh :=
  ⟨[⟨1, 2, 3⟩, ⟨4, 5, 6⟩, ⟨7, 8, 9⟩], none, none, [[0, 1, 2]], 0⟩

/-- A material binding the given reference in the given slot and nothing else. -/
def exMaterial1 (slot : Nat) (ref : Str) : aiMaterial :=
  ⟨fun t => if t = slot then [ref] else []⟩

/-- A material binding one reference in each of two slots. -/
def exMaterial2 (slot1 : Nat) (ref1 : Str) (slot2 : Nat) (ref2 : Str) : aiMaterial :=
  ⟨fun t => if t = slot1 then [ref1] else if t = slot2 then [ref2] else []⟩

/-- One compressed embedded texture of four bytes. -/
def exEmbedded : List (Option aiTexture) := [some ⟨4, 0, some [137, 80, 78, 71]⟩]

/-- A scene whose root node holds two meshes that use the same material, which binds the
embedded texture `*0` in the diffuse slot. -/
def sceneSharedMaterial : aiScene :=
  ⟨0, some (.mk [0, 1] []), [exTriangle, exTriangle],
    [exMaterial1 aiTextureType_DIFFUSE "*0".toList], exEmbedded⟩

/-- The asset `fish.glb` holds `sceneSharedMaterial`; there is no other file. -/
def envSharedMaterial : Env :=
  exEnv (fun p => if p = "fish.glb".toList then some sceneSharedMaterial else none)
    (fun _ => none)

/-- A scene of one mesh whose material binds `a.png` in the specular slot and `b.png` in
the height slot. -/
def sceneSpecularHeight : aiScene :=
  ⟨0, some (.mk [0] []), [exTriangle],
    [exMaterial2 aiTextureType_SPECULAR "a.png".toList aiTextureType_HEIGHT "b.png".toList],
    []⟩

/-- Both image files of `sceneSpecularHeight` exist and decode. -/
def envSpecularHeight : Env :=
  exEnv (fun p => if p = "models/fish.obj".toList then some sceneSpecularHeight else none)
    (fun p =>
      if p = "models/a.png".toList ∨ p = "models/b.png".toList then some ⟨8, 8, 3⟩ else none)

/-- A scene of one mesh whose material binds the given reference in the diffuse slot,
with one embedded texture. -/
def sceneOneRef (ref : Str) : aiScene :=
  ⟨0, some (.mk [0] []), [exTriangle], [exMaterial1 aiTextureType_DIFFUSE ref], exEmbedded⟩

/-- Every asset path holds `sceneOneRef ref`; no image file exists. -/
def envOneRef (ref : Str) : Env :=
  exEnv (fun _ => some (sceneOneRef ref)) (fun _ => none)

/-- The tree of the traversal example: N0 holds meshes 2 and 0; its children are N1,
holding mesh 3, and N2, holding no mesh and one child that holds mesh 1. -/
def exTree : aiNode :=
  .mk [2, 0] [.mk [3] [], .mk [] [.mk [1] []]]

/-- A mesh of one vertex `(k, k, k)`, without normals, using material 0. -/
def exPoint (k : Nat) : aiMesh := ⟨[⟨k, k, k⟩], none, none, [], 0⟩

/-- A scene over `exTree` with four distinguishable meshes and a material without
textures. -/
def sceneTree : aiScene :=
  ⟨0, some exTree, [exPoint 10, exPoint 11, exPoint 12, exPoint 13], [⟨fun _ => []⟩], []⟩

/-- Every asset path holds `sceneTree`. -/
def envTree : Env := exEnv (fun _ => some sceneTree) (fun _ => none)

/-- No asset can be imported. -/
def envNoAsset : Env := exEnv (fun _ => none) (fun _ => none)

/-- A scene of one mesh whose material binds `*0` both in the diffuse and in the specular
slot, with one embedded texture. -/
def sceneTwoSlots : aiScene :=
  ⟨0, some (.mk [0] []), [exTriangle],
    [exMaterial2 aiTextureType_DIFFUSE "*0".toList aiTextureType_SPECULAR "*0".toList],
    exEmbedded⟩

/-- Every asset path holds `sceneTwoSlots`; no image file exists. -/
def envTwoSlots : Env := exEnv (fun _ => some sceneTwoSlots) (fun _ => none)

/-- A material binding `*0` and `a.png` in the diffuse slot and `*0`, `a.png` and
`nope.png` in the specular slot. -/
def exMaterialMixed : aiMaterial :=
  ⟨fun t =>
    if t = aiTextureType_DIFFUSE then ["*0".toList, "a.png".toList]
    else if t = aiTextureType_SPECULAR then ["*0".toList, "a.png".toList, "nope.png".toList]
    else []⟩

/-- A scene of one mesh using `exMaterialMixed`, with one embedded texture. -/
def sceneMixed : aiScene :=
  ⟨0, some (.mk [0] []), [exTriangle], [exMaterialMixed], exEmbedded⟩

/-- The asset `models/fish.obj` holds `sceneMixed`; of the image files only
`models/a.png` exists. -/
def envMixed : Env :=
  exEnv (fun p => if p = "models/fish.obj".toList then some sceneMixed else none)
    (fun p => if p = "models/a.png".toList then some ⟨8, 8, 3⟩ else none)

/-- The asset `fish.obj`, named without any directory, binds `a.png`; the image file
`a.png` exists next to it and decodes. -/
def envBareName : Env :=
  exEnv (fun p => if p = "fish.obj".toList then some (sceneOneRef "a.png".toList) else none)
    (fun p => if p = "a.png".toList then some ⟨8, 8, 3⟩ else none)

/-- Both decoders return an 8x8 image of one channel for whatever they are given. -/
def envGray : Env :=
  ⟨fun _ => none, fun _ => some ⟨8, 8, 1⟩, fun _ _ => some ⟨8, 8, 1⟩, exTypeName⟩

/-! ## Loops -/

theorem loopE_append {σ α : Type} (body : σ → α → Except Exn σ) (xs ys : List α) (s : σ) :
    loopE body s (xs ++ ys) =
      match loopE body s xs with
      | .error e => .error e
      | .ok s1 => loopE body s1 ys := by
  induction xs generalizing s with
  | nil => rfl
  | cons x xs ih =>
    simp only [List.cons_append, loopE]
    cases body s x with
    | error e => rfl
    | ok s1 => exact ih s1

/-! ## Traversal -/

mutual
theorem processNode_preorder (env : Env) (scene : aiScene) (directory path : Str) :
    ∀ (node : aiNode) (st : Model × World),
      processNode env scene directory path node st =
        loopE (pushMesh env scene directory path) st (preorder node)
  | .mk mMeshes mChildren, st => by
    rw [processNode, preorder, loopE_append]
    cases loopE (pushMesh env scene directory path) st mMeshes with
    | error e => rfl
    | ok st1 => exact processChildren_preorder env scene directory path mChildren st1
theorem processChildren_preorder (env : Env) (scene : aiScene) (directory path : Str) :
    ∀ (cs : List aiNode) (st : Model × World),
      processChildren env scene directory path cs st =
        loopE (pushMesh env scene directory path) st (preorderList cs)
  | [], st => by rw [processChildren, preorderList]; rfl
  | c :: cs, st => by
    rw [processChildren, preorderList, loopE_append,
      processNode_preorder env scene directory path c st]
    cases loopE (pushMesh env scene directory path) st (preorder c) with
    | error e => rfl
    | ok st1 => exact processChildren_preorder env scene directory path cs st1
end

theorem processMesh_shape (env : Env) (scene : aiScene) (directory path : Str)
    (mesh : aiMesh) (w : World) (m : Mesh) (w1 : World)
    (h : processMesh env scene directory path mesh w = .ok (m, w1)) :
    m.vertices = processVertices mesh ∧ m.indices = processIndices mesh := by
  unfold processMesh at h
  split at h
  · cases h
  · split at h
    · cases h
    · cases h; exact ⟨rfl, rfl⟩

theorem pushMesh_ok (env : Env) (scene : aiScene) (directory path : Str)
    (st st1 : Model × World) (i : Nat)
    (h : pushMesh env scene directory path st i = .ok st1) :
    ∃ src mesh w, scene.mMeshes.get? i = some src ∧
      processMesh env scene directory path src st.2 = .ok (mesh, w) ∧
      st1 = (⟨st.1.meshes ++ [mesh]⟩, w) := by
  unfold pushMesh at h
  split at h
  · cases h
  · rename_i src hs
    split at h
    · cases h
    · rename_i mesh w hm
      cases h
      exact ⟨src, mesh, w, hs, hm, rfl⟩

theorem loopE_ok_cons {σ α : Type} (body : σ → α → Except Exn σ) (x : α) (xs : List α)
    (s r : σ) (h : loopE body s (x :: xs) = .ok r) :
    ∃ s1, body s x = .ok s1 ∧ loopE body s1 xs = .ok r := by
  simp only [loopE] at h
  split at h
  · cases h
  · rename_i s1 hs
    exact ⟨s1, hs, h⟩

theorem loopE_pushMesh_built (env : Env) (scene : aiScene) (directory path : Str) :
    ∀ (idxs : List Nat) (st : Model × World) (m : Model) (w : World),
      loopE (pushMesh env scene directory path) st idxs = .ok (m, w) →
      ∃ built, m.meshes = st.1.meshes ++ built ∧
        List.Forall₂ (BuiltFrom scene) idxs built
  | [], st, m, w, h => by
    simp only [loopE] at h
    cases h
    exact ⟨[], by simp, List.Forall₂.nil⟩
  | i :: idxs, st, m, w, h => by
    obtain ⟨st1, hp, hrest⟩ := loopE_ok_cons _ _ _ _ _ h
    obtain ⟨built, hb, hf⟩ :=
      loopE_pushMesh_built env scene directory path idxs st1 m w hrest
    obtain ⟨src, mesh, w2, hs, hm, rfl⟩ := pushMesh_ok env scene directory path st st1 i hp
    have hshape := processMesh_shape env scene directory path src st.2 mesh w2 hm
    refine ⟨mesh :: built, ?_, List.Forall₂.cons ⟨src, hs, hshape.1, hshape.2⟩ hf⟩
    rw [hb]
    simp

/-! ## Vertices -/

theorem processVertices_length (mesh : aiMesh) :
    (processVertices mesh).length = mesh.mVertices.length := by
  simp [processVertices]

theorem processVertices_positions (mesh : aiMesh) :
    (processVertices mesh).map (fun v => v.Position) = mesh.mVertices := by
  apply List.ext_getElem
  · simp [processVertices]
  · intro n h1 h2
    simp only [processVertices, List.map_map, List.getElem_map, Function.comp,
      List.getElem_range, buildVertex]
    rw [List.getD_eq_getElem _ _ h2]

theorem processVertices_zero_normals (mesh : aiMesh) (h : mesh.mNormals = none) :
    ∀ v ∈ processVertices mesh, v.Normal = Vec3.zero := by
  intro v hv
  simp only [processVertices, List.mem_map] at hv
  obtain ⟨i, _, rfl⟩ := hv
  simp [buildVertex, aiMesh.HasNormals, h, Vec3.zero]

theorem processMesh_vertices_of_texture_stage (env : Env) (scene : aiScene)
    (directory path : Str) (mesh : aiMesh) (w : World) (mat : aiMaterial) (st : TexState)
    (hmat : scene.mMaterials.get? mesh.mMaterialIndex = some mat)
    (hload : loadMaterialTextures env scene mat directory [] path w = .ok st) :
    ∃ m, processMesh env scene directory path mesh w = .ok (m, st.world) ∧
      m.vertices = processVertices mesh := by
  unfold processMesh
  rw [hmat]
  simp only [hload]
  exact ⟨_, rfl, rfl⟩

/-! ## Strings -/

theorem findChar_isSome_iff (s : Str) (c : Char) : (findChar s c).isSome = true ↔ c ∈ s := by
  induction s with
  | nil => simp [findChar]
  | cons x xs ih =>
    by_cases hx : x = c
    · simp [findChar, hx]
    · have hx2 : ¬ c = x := fun h => hx h.symm
      simp [findChar, hx, hx2, ih]

theorem findChar_append_of_not_mem (p s : Str) (c : Char) (h : c ∉ p) :
    findChar (p ++ c :: s) c = some p.length := by
  induction p with
  | nil => simp [findChar]
  | cons x xs ih =>
    have hx : ¬ x = c := fun e => h (by simp [e])
    have hxs : c ∉ xs := fun e => h (by simp [e])
    simp [findChar, hx, ih hxs]

theorem findStr_append_self (p s : Str) : findStr (p ++ s) p = some 0 := by
  cases hps : p ++ s with
  | nil =>
    have hp : p = [] := (List.append_eq_nil.mp hps).1
    simp [findStr, hp]
  | cons x xs =>
    have hpre : p.isPrefixOf (x :: xs) = true := by
      rw [List.isPrefixOf_iff_prefix, ← hps]
      exact List.prefix_append p s
    simp [findStr, hpre]

theorem fullPath_eq_self_iff (directory texPath : Str) :
    fullPath directory texPath = texPath ↔
      ((findStr texPath [':']).isSome = true ∨ directory = []) := by
  unfold fullPath
  cases hf : findStr texPath [':'] with
  | some k => simp
  | none =>
    cases directory with
    | nil => simp
    | cons d ds =>
      simp only [Option.isNone_none, List.isEmpty_cons, Bool.not_false, Bool.and_self,
        if_true, Option.isSome_none, Bool.false_eq_true, false_or]
      constructor
      · intro h
        have := congrArg List.length h
        simp at this
        omega
      · intro h
        cases h

/-! ## One reference -/

theorem normalizeKey_of_not_marker (modelPath str : Str) (h : str.head? ≠ some '*') :
    normalizeKey modelPath str = str := by
  unfold normalizeKey
  cases str with
  | nil => simp
  | cons c cs =>
    have hc : c ≠ '*' := fun e => h (by simp [e])
    simp [hc]

theorem normalizeKey_marker (modelPath s : Str) :
    normalizeKey modelPath ('*' :: s) = modelPath ++ '*' :: s := by
  simp [normalizeKey]

theorem resolveTexture_external (env : Env) (scene : aiScene)
    (directory modelPath typeName str : Str) (st : TexState)
    (hne : str ≠ []) (hstar : str.head? ≠ some '*')
    (hemb : isEmbeddedKey modelPath str = false)
    (hcache : cacheLookup st.local_textures_loaded str = none) :
    resolveTexture env scene directory modelPath typeName str st =
      .ok (loadExternal env directory typeName str st) := by
  unfold resolveTexture
  rw [normalizeKey_of_not_marker modelPath str hstar]
  simp only [hcache, hemb]
  cases str with
  | nil => exact absurd rfl hne
  | cons c cs => simp

theorem loadExternal_decoded (env : Env) (directory typeName texPath : Str) (st : TexState)
    (img : Image) (hdec : env.stbi_load (fullPath directory texPath) = some img) :
    loadExternal env directory typeName texPath st =
      { textures := st.textures ++ [⟨st.world.names + 1, typeName, texPath⟩],
        local_textures_loaded :=
          st.local_textures_loaded ++ [⟨st.world.names + 1, typeName, texPath⟩],
        world := glTexImage2D (glGenTextures st.world).2 (st.world.names + 1)
          (loadTextureFormat img.nrComponents) img.width img.height } := by
  simp [loadExternal, loadTexture, hdec, glGenTextures]

theorem isEmbeddedKey_marker (modelPath s : Str) :
    isEmbeddedKey modelPath (modelPath ++ '*' :: s) = true := by
  have h1 : (findChar (modelPath ++ '*' :: s) '*').isSome = true :=
    (findChar_isSome_iff _ _).mpr (by simp)
  have h2 : (modelPath ++ '*' :: s).isEmpty = false := by
    cases modelPath <;> rfl
  simp [isEmbeddedKey, findStr_append_self, h1, h2]

theorem substr_after_marker (modelPath s : Str) (h : '*' ∉ modelPath) :
    substr (modelPath ++ '*' :: s) (posSucc (findChar (modelPath ++ '*' :: s) '*')) none
      = s := by
  rw [findChar_append_of_not_mem modelPath s '*' h]
  simp only [posSucc, substr]
  have : modelPath ++ '*' :: s = (modelPath ++ ['*']) ++ s := by simp
  rw [this]
  have hl : modelPath.length + 1 = (modelPath ++ ['*']).length := by simp
  rw [hl, List.drop_left]

theorem loadEmbedded_decoded (env : Env) (scene : aiScene) (typeName texPath : Str)
    (k : Nat) (st : TexState) (aTex : aiTexture) (img : Image)
    (htex : scene.mTextures.get? k = some (some aTex))
    (hdec : embeddedData env aTex = some img) :
    loadEmbedded env scene typeName texPath (k : Int) st =
      { textures := st.textures ++ [⟨st.world.names + 1, typeName, texPath⟩],
        local_textures_loaded :=
          st.local_textures_loaded ++ [⟨st.world.names + 1, typeName, texPath⟩],
        world := ⟨st.world.names + 1,
          st.world.uploads ++
            [⟨st.world.names + 1, some (embeddedFormat img.nrComponents), img.width,
              img.height⟩],
          st.world.cout⟩ } := by
  have hlt : k < scene.mTextures.length := by
    rw [List.get?_eq_getElem?] at htex
    exact (List.getElem?_eq_some_iff.mp htex).1
  have hcond : 0 ≤ (k : Int) ∧ (k : Int) < (scene.mTextures.length : Int) :=
    ⟨Int.ofNat_nonneg k, by exact_mod_cast hlt⟩
  unfold loadEmbedded
  rw [if_pos hcond]
  simp only [Int.toNat_ofNat, htex, hdec, glGenTextures, glTexImage2D]

theorem resolveTexture_embedded_fresh (env : Env) (scene : aiScene)
    (directory modelPath typeName s : Str) (st : TexState) (k : Nat) (aTex : aiTexture)
    (img : Image) (hpath : '*' ∉ modelPath)
    (hcache : cacheLookup st.local_textures_loaded (modelPath ++ '*' :: s) = none)
    (hidx : stoi s = .ok (k : Int))
    (htex : scene.mTextures.get? k = some (some aTex))
    (hdec : embeddedData env aTex = some img) :
    resolveTexture env scene directory modelPath typeName ('*' :: s) st =
      .ok { textures :=
              st.textures ++ [⟨st.world.names + 1, typeName, modelPath ++ '*' :: s⟩],
            local_textures_loaded :=
              st.local_textures_loaded ++
                [⟨st.world.names + 1, typeName, modelPath ++ '*' :: s⟩],
            world := ⟨st.world.names + 1,
              st.world.uploads ++
                [⟨st.world.names + 1, some (embeddedFormat img.nrComponents), img.width,
                  img.height⟩],
              st.world.cout⟩ } := by
  unfold resolveTexture
  rw [normalizeKey_marker]
  simp only [hcache, isEmbeddedKey_marker, if_true]
  rw [substr_after_marker modelPath s hpath, hidx]
  simp only []
  rw [loadEmbedded_decoded env scene typeName _ k st aTex img htex hdec]

theorem resolveTexture_cached (env : Env) (scene : aiScene)
    (directory modelPath typeName str : Str) (st : TexState) (tex : Texture)
    (h : cacheLookup st.local_textures_loaded (normalizeKey modelPath str) = some tex) :
    resolveTexture env scene directory modelPath typeName str st =
      .ok { st with
        textures := st.textures ++ [⟨tex.id, typeName, normalizeKey modelPath str⟩] } := by
  unfold resolveTexture
  simp only [h]

/-! ## Slots -/

theorem loadSlot_unbound (env : Env) (scene : aiScene) (mat : aiMaterial)
    (directory modelPath : Str) (st : TexState) (t : Nat) (h : mat.textures t = []) :
    loadSlot env scene mat directory modelPath st t = .ok st := by
  simp [loadSlot, h]

theorem loopE_loadSlot_unbound (env : Env) (scene : aiScene) (mat : aiMaterial)
    (directory modelPath : Str) (l : List Nat) (st : TexState)
    (h : ∀ t ∈ l, mat.textures t = []) :
    loopE (loadSlot env scene mat directory modelPath) st l = .ok st := by
  induction l with
  | nil => rfl
  | cons t ts ih =>
    simp only [loopE]
    rw [loadSlot_unbound env scene mat directory modelPath st t (h t (by simp))]
    exact ih (fun u hu => h u (by simp [hu]))

theorem loadSlot_single (env : Env) (scene : aiScene) (mat : aiMaterial)
    (directory modelPath : Str) (st : TexState) (t : Nat) (str : Str)
    (h : mat.textures t = [str]) :
    loadSlot env scene mat directory modelPath st t =
      resolveTexture env scene directory modelPath (env.aiTextureTypeToString t) str st := by
  simp only [loadSlot, h, List.length_singleton, Nat.succ_ne_zero, if_false, loopE]
  cases resolveTexture env scene directory modelPath (env.aiTextureTypeToString t) str st
    <;> rfl

theorem range'_split (s n k : Nat) (hk : k < n) :
    List.range' s n = List.range' s k ++ (s + k) :: List.range' (s + k + 1) (n - k - 1) := by
  have h := List.range'_append s k (n - k) 1
  rw [show n - k + k = n by omega, Nat.one_mul] at h
  rw [← h, show n - k = (n - k - 1) + 1 by omega, List.range'_succ]
  simp

theorem slotRange_split (t1 t2 : Nat) (h12 : t1 < t2) (h2 : t2 ≤ aiTextureType_UNKNOWN) :
    slotRange =
      List.range' 0 t1 ++
        t1 :: (List.range' (t1 + 1) (t2 - t1 - 1) ++ t2 :: List.range' (t2 + 1) (18 - t2)) := by
  unfold aiTextureType_UNKNOWN at h2
  have e1 : slotRange = List.range' 0 19 := rfl
  rw [e1, range'_split 0 19 t1 (by omega), Nat.zero_add,
    range'_split (t1 + 1) (19 - t1 - 1) (t2 - t1 - 1) (by omega)]
  rw [show t1 + 1 + (t2 - t1 - 1) = t2 by omega,
    show 19 - t1 - 1 - (t2 - t1 - 1) - 1 = 18 - t2 by omega]

/-! ## Ownership -/

theorem World.Ext.refl (w : World) : World.Ext w w :=
  ⟨Nat.le_refl _, [], by simp⟩

theorem World.Ext.trans {a b c : World} (h1 : World.Ext a b) (h2 : World.Ext b c) :
    World.Ext a c := by
  obtain ⟨n1, l1, e1⟩ := h1
  obtain ⟨n2, l2, e2⟩ := h2
  exact ⟨Nat.le_trans n1 n2, l1 ++ l2, by rw [e2, e1, List.append_assoc]⟩

theorem Owned.later {env : Env} {directory modelPath : Str} {w0 w w1 : World}
    {t : Texture} (h : Owned env directory modelPath w0 w t) (he : World.Ext w w1) :
    Owned env directory modelPath w0 w1 t := by
  obtain ⟨h1, h2, h3⟩ := h
  obtain ⟨hn, l, hl⟩ := he
  refine ⟨h1, Nat.le_trans h2 hn, fun hc => ?_⟩
  obtain ⟨u, hu, hid⟩ := h3 hc
  refine ⟨u, ?_, hid⟩
  unfold newUploads at hu ⊢
  rw [hl, List.drop_append_eq_append_drop]
  exact List.mem_append_left _ hu

theorem Owned.earlier {env : Env} {directory modelPath : Str} {w0 w1 w : World}
    {t : Texture} (h : Owned env directory modelPath w1 w t) (he : World.Ext w0 w1) :
    Owned env directory modelPath w0 w t := by
  obtain ⟨h1, h2, h3⟩ := h
  obtain ⟨hn, l, hl⟩ := he
  refine ⟨Nat.lt_of_le_of_lt hn h1, h2, fun hc => ?_⟩
  obtain ⟨u, hu, hid⟩ := h3 hc
  refine ⟨u, ?_, hid⟩
  unfold newUploads at hu ⊢
  have hlen : w1.uploads.length = w0.uploads.length + l.length := by
    rw [hl, List.length_append]
  rw [hlen, ← List.drop_drop] at hu
  exact List.mem_of_mem_drop hu

theorem Owned.new_upload {env : Env} {directory modelPath : Str} {w0 w : World}
    (he : World.Ext w0 w) (typeName texPath : Str) (cout : List Diag) (u : Upload)
    (hu : u.id = w.names + 1) :
    Owned env directory modelPath w0 ⟨w.names + 1, w.uploads ++ [u], cout⟩
      ⟨w.names + 1, typeName, texPath⟩ := by
  obtain ⟨hn, l, hl⟩ := he
  refine ⟨Nat.lt_succ_of_le hn, Nat.le_refl _, fun _ => ⟨u, ?_, hu⟩⟩
  unfold newUploads
  simp only [hl, List.append_assoc, List.drop_left]
  simp

theorem TexInv.push_world {env : Env} {directory modelPath : Str} {w0 : World}
    {st : TexState} (h : TexInv env directory modelPath w0 st) (w1 : World)
    (he : World.Ext st.world w1) (t : Texture)
    (ht : Owned env directory modelPath w0 w1 t) :
    TexInv env directory modelPath w0
      ⟨st.textures ++ [t], st.local_textures_loaded ++ [t], w1⟩ := by
  obtain ⟨h1, h2, h3⟩ := h
  refine ⟨h1.trans he, ?_, ?_⟩
  · intro x hx
    rcases List.mem_append.mp hx with hx | hx
    · exact (h2 x hx).later he
    · rw [List.mem_singleton.mp hx]; exact ht
  · intro x hx
    rcases List.mem_append.mp hx with hx | hx
    · exact (h3 x hx).later he
    · rw [List.mem_singleton.mp hx]; exact ht

theorem loadEmbedded_inv (env : Env) (scene : aiScene) (directory modelPath : Str)
    (typeName texPath : Str) (texIndex : Int) (w0 : World) (st : TexState)
    (h : TexInv env directory modelPath w0 st) :
    TexInv env directory modelPath w0 (loadEmbedded env scene typeName texPath texIndex st) := by
  unfold loadEmbedded
  split
  · split
    · split
      · simp only [glGenTextures, glTexImage2D]
        exact h.push_world _ ⟨Nat.le_succ _, _, rfl⟩ _
          (Owned.new_upload h.1 typeName texPath _ _ rfl)
      · exact h
    · exact h
  · exact h

theorem loadExternal_inv (env : Env) (directory modelPath : Str)
    (typeName texPath : Str) (w0 : World) (st : TexState)
    (hemb : isEmbeddedKey modelPath texPath = false)
    (h : TexInv env directory modelPath w0 st) :
    TexInv env directory modelPath w0 (loadExternal env directory typeName texPath st) := by
  unfold loadExternal loadTexture
  cases hdec : env.stbi_load (fullPath directory texPath) with
  | some img =>
    simp only [glGenTextures, glTexImage2D, ne_eq, Nat.succ_ne_zero, not_false_eq_true,
      if_true]
    exact h.push_world _ ⟨Nat.le_succ _, _, rfl⟩ _
      (Owned.new_upload h.1 typeName texPath _ _ rfl)
  | none =>
    simp only [glGenTextures, ne_eq, Nat.succ_ne_zero, not_false_eq_true, if_true]
    refine h.push_world _ ⟨Nat.le_succ _, [], by simp⟩ _ ?_
    refine ⟨Nat.lt_succ_of_le h.1.1, Nat.le_refl _, fun hc => ?_⟩
    rcases hc with hc | hc
    · rw [hemb] at hc; cases hc
    · rw [hdec] at hc; cases hc

theorem resolveTexture_inv (env : Env) (scene : aiScene)
    (directory modelPath typeName str : Str) (w0 : World) (st st1 : TexState)
    (h : TexInv env directory modelPath w0 st)
    (hr : resolveTexture env scene directory modelPath typeName str st = .ok st1) :
    TexInv env directory modelPath w0 st1 := by
  unfold resolveTexture at hr
  simp only [] at hr
  split at hr
  · rename_i tex hfind
    cases hr
    obtain ⟨h1, h2, h3⟩ := h
    have hmem : tex ∈ st.local_textures_loaded := List.mem_of_find?_eq_some hfind
    have hp : tex.path = normalizeKey modelPath str := by
      have := List.find?_some hfind
      simpa using this
    refine ⟨h1, ?_, h3⟩
    intro x hx
    rcases List.mem_append.mp hx with hx | hx
    · exact h2 x hx
    · rw [List.mem_singleton.mp hx]
      obtain ⟨o1, o2, o3⟩ := h3 tex hmem
      exact ⟨o1, o2, fun hc => o3 (by rw [hp]; exact hc)⟩
  · split at hr
    · split at hr
      · cases hr
      · cases hr
        exact loadEmbedded_inv env scene directory modelPath typeName _ _ w0 st h
    · rename_i hemb
      split at hr
      · cases hr
        exact loadExternal_inv env directory modelPath typeName _ w0 st
          (by simpa using hemb) h
      · cases hr
        exact h

theorem loopE_invariant {σ α : Type} (P : σ → Prop) (body : σ → α → Except Exn σ)
    (hbody : ∀ s x s1, P s → body s x = .ok s1 → P s1) :
    ∀ (xs : List α) (s r : σ), P s → loopE body s xs = .ok r → P r
  | [], s, r, hs, h => by
    simp only [loopE] at h
    cases h
    exact hs
  | x :: xs, s, r, hs, h => by
    obtain ⟨s1, h1, h2⟩ := loopE_ok_cons body x xs s r h
    exact loopE_invariant P body hbody xs s1 r (hbody s x s1 hs h1) h2

theorem loadSlot_inv (env : Env) (scene : aiScene) (mat : aiMaterial)
    (directory modelPath : Str) (w0 : World) (st st1 : TexState) (t : Nat)
    (h : TexInv env directory modelPath w0 st)
    (hr : loadSlot env scene mat directory modelPath st t = .ok st1) :
    TexInv env directory modelPath w0 st1 := by
  unfold loadSlot at hr
  split at hr
  · cases hr; exact h
  · exact loopE_invariant (TexInv env directory modelPath w0) _
      (fun s x s1 hs hb =>
        resolveTexture_inv env scene directory modelPath _ x w0 s s1 hs hb)
      _ st st1 h hr

theorem loadMaterialTextures_inv (env : Env) (scene : aiScene) (mat : aiMaterial)
    (directory modelPath : Str) (w : World) (st : TexState)
    (hr : loadMaterialTextures env scene mat directory [] modelPath w = .ok st) :
    TexInv env directory modelPath w st := by
  unfold loadMaterialTextures at hr
  refine loopE_invariant (TexInv env directory modelPath w) _
    (fun s x s1 hs hb => loadSlot_inv env scene mat directory modelPath w s s1 x hs hb)
    _ _ st ?_ hr
  exact ⟨World.Ext.refl w, fun t ht => (by cases ht), fun t ht => (by cases ht)⟩

theorem processMesh_inv (env : Env) (scene : aiScene) (directory path : Str)
    (mesh : aiMesh) (w w1 : World) (m : Mesh)
    (hr : processMesh env scene directory path mesh w = .ok (m, w1)) :
    World.Ext w w1 ∧ ∀ t ∈ m.textures, Owned env directory path w w1 t := by
  unfold processMesh at hr
  split at hr
  · cases hr
  · rename_i mat hmat
    split at hr
    · cases hr
    · rename_i st hst
      cases hr
      obtain ⟨h1, h2, h3⟩ := loadMaterialTextures_inv env scene mat directory path w st hst
      refine ⟨h1, fun t ht => ?_⟩
      rcases List.mem_append.mp ht with ht | ht
      · exact h3 t ht
      · exact h2 t ht

theorem pushMesh_inv (env : Env) (scene : aiScene) (directory path : Str) (w0 : World)
    (st st1 : Model × World) (i : Nat)
    (h : ModelInv env directory path w0 st)
    (hr : pushMesh env scene directory path st i = .ok st1) :
    ModelInv env directory path w0 st1 := by
  obtain ⟨src, mesh, w, _, hm, rfl⟩ := pushMesh_ok env scene directory path st st1 i hr
  obtain ⟨he, hown⟩ := processMesh_inv env scene directory path src st.2 w mesh hm
  obtain ⟨h1, h2⟩ := h
  refine ⟨h1.trans he, fun mesh1 hmesh t ht => ?_⟩
  rcases List.mem_append.mp hmesh with hmesh | hmesh
  · exact (h2 mesh1 hmesh t ht).later he
  · rw [List.mem_singleton.mp hmesh] at ht
    exact (hown t ht).earlier h1

theorem loadModel_inv (env : Env) (path : Str) (w : World) (m : Model) (w1 : World)
    (hr : loadModel env path (Model.fresh, w) = .ok (m, w1)) :
    ModelInv env (assetDirectory path) path w (m, w1) := by
  have h0 : ModelInv env (assetDirectory path) path w (Model.fresh, w) :=
    ⟨World.Ext.refl w, fun mesh hmesh => by cases hmesh⟩
  have hfail : ModelInv env (assetDirectory path) path w
      (Model.fresh, { w with cout := w.cout ++ [Diag.assimpError] }) :=
    ⟨⟨Nat.le_refl _, [], by simp⟩, fun mesh hmesh => by cases hmesh⟩
  unfold loadModel at hr
  cases hread : env.ReadFile path with
  | none =>
    rw [hread] at hr
    cases hr
    exact hfail
  | some scene =>
    rw [hread] at hr
    simp only [] at hr
    split at hr
    · cases hr; exact hfail
    · cases hroot : scene.mRootNode with
      | none =>
        rw [hroot] at hr
        cases hr
        exact hfail
      | some root =>
        rw [hroot] at hr
        simp only [] at hr
        rw [processNode_preorder] at hr
        exact loopE_invariant (ModelInv env (assetDirectory path) path w) _
          (fun s x s1 hs hb =>
            pushMesh_inv env scene (assetDirectory path) path w s s1 x hs hb)
          _ _ _ h0 hr

theorem init_inv (env : Env) (path : Str) (w : World) (b : Bool) (m : Model) (w1 : World)
    (hr : Model.init env path Model.fresh w = .ok (b, m, w1)) :
    ModelInv env (assetDirectory path) path w (m, w1) := by
  unfold Model.init at hr
  split at hr
  · cases hr
  · rename_i m1 w2 hl
    cases hr
    exact loadModel_inv env path w m w1 hl

theorem init_owned (env : Env) (path : Str) (w : World) (b : Bool) (m : Model)
    (w1 : World) (hr : Model.init env path Model.fresh w = .ok (b, m, w1)) :
    ∀ mesh ∈ m.meshes, ∀ t ∈ mesh.textures,
      w.names < t.id ∧ t.id ≤ w1.names ∧
        (∀ r, t.path = normalizeKey path ('*' :: r) →
          ∃ u ∈ newUploads w w1, u.id = t.id) := by
  intro mesh hmesh t ht
  obtain ⟨o1, o2, o3⟩ := (init_inv env path w b m w1 hr).2 mesh hmesh t ht
  refine ⟨o1, o2, fun r hr2 => o3 (Or.inl ?_)⟩
  rw [hr2, normalizeKey_marker]
  exact isEmbeddedKey_marker path r

theorem normalizeKey_marker_injective (p1 p2 r : Str)
    (h : normalizeKey p1 ('*' :: r) = normalizeKey p2 ('*' :: r)) : p1 = p2 := by
  rw [normalizeKey_marker, normalizeKey_marker] at h
  exact List.append_cancel_right h

/-! ## Cache consistency -/

theorem cacheLookup_none (cache : List Texture) (texPath : Str)
    (h : cacheLookup cache texPath = none) : ∀ c ∈ cache, c.path ≠ texPath := by
  intro c hc
  unfold cacheLookup at h
  have := List.find?_eq_none.mp h c hc
  simpa using this

theorem CacheInv.push {st : TexState} (h : CacheInv st) (t : Texture) (w1 : World)
    (hfresh : ∀ c ∈ st.local_textures_loaded, c.path ≠ t.path) :
    CacheInv ⟨st.textures ++ [t], st.local_textures_loaded ++ [t], w1⟩ := by
  obtain ⟨h1, h2⟩ := h
  constructor
  · intro c1 hc1 c2 hc2 hp
    rcases List.mem_append.mp hc1 with hc1 | hc1
    · rcases List.mem_append.mp hc2 with hc2 | hc2
      · exact h1 c1 hc1 c2 hc2 hp
      · rw [List.mem_singleton.mp hc2] at hp
        exact absurd hp (hfresh c1 hc1)
    · rcases List.mem_append.mp hc2 with hc2 | hc2
      · rw [List.mem_singleton.mp hc1] at hp
        exact absurd hp.symm (hfresh c2 hc2)
      · rw [List.mem_singleton.mp hc1, List.mem_singleton.mp hc2]
  · intro x hx
    rcases List.mem_append.mp hx with hx | hx
    · obtain ⟨c, hc, e1, e2⟩ := h2 x hx
      exact ⟨c, List.mem_append_left _ hc, e1, e2⟩
    · exact ⟨t, List.mem_append_right _ (List.mem_singleton.mpr rfl),
        by rw [List.mem_singleton.mp hx], by rw [List.mem_singleton.mp hx]⟩

theorem CacheInv.world {st : TexState} (h : CacheInv st) (w1 : World) :
    CacheInv { st with world := w1 } := h

theorem loadEmbedded_cacheInv (env : Env) (scene : aiScene) (typeName texPath : Str)
    (texIndex : Int) (st : TexState) (h : CacheInv st)
    (hfresh : ∀ c ∈ st.local_textures_loaded, c.path ≠ texPath) :
    CacheInv (loadEmbedded env scene typeName texPath texIndex st) := by
  unfold loadEmbedded
  split
  · split
    · split
      · exact h.push ⟨_, typeName, texPath⟩ _ hfresh
      · exact h
    · exact h
  · exact h

theorem loadExternal_cacheInv (env : Env) (directory typeName texPath : Str)
    (st : TexState) (h : CacheInv st)
    (hfresh : ∀ c ∈ st.local_textures_loaded, c.path ≠ texPath) :
    CacheInv (loadExternal env directory typeName texPath st) := by
  unfold loadExternal
  simp only []
  split
  · exact h.push ⟨_, typeName, texPath⟩ _ hfresh
  · exact h.world _

theorem resolveTexture_cacheInv (env : Env) (scene : aiScene)
    (directory modelPath typeName str : Str) (st st1 : TexState) (h : CacheInv st)
    (hr : resolveTexture env scene directory modelPath typeName str st = .ok st1) :
    CacheInv st1 := by
  unfold resolveTexture at hr
  simp only [] at hr
  split at hr
  · rename_i tex hfind
    cases hr
    have hmem : tex ∈ st.local_textures_loaded := List.mem_of_find?_eq_some hfind
    have hp : tex.path = normalizeKey modelPath str := by
      have := List.find?_some hfind
      simpa using this
    refine ⟨h.1, fun x hx => ?_⟩
    rcases List.mem_append.mp hx with hx | hx
    · exact h.2 x hx
    · rw [List.mem_singleton.mp hx]
      exact ⟨tex, hmem, hp, rfl⟩
  · rename_i hnone
    have hfresh := cacheLookup_none _ _ hnone
    split at hr
    · split at hr
      · cases hr
      · cases hr
        exact loadEmbedded_cacheInv env scene typeName _ _ st h hfresh
    · split at hr
      · cases hr
        exact loadExternal_cacheInv env directory typeName _ st h hfresh
      · cases hr
        exact h

theorem loadMaterialTextures_cacheInv (env : Env) (scene : aiScene) (mat : aiMaterial)
    (directory modelPath : Str) (w : World) (st : TexState)
    (hr : loadMaterialTextures env scene mat directory [] modelPath w = .ok st) :
    CacheInv st := by
  unfold loadMaterialTextures at hr
  refine loopE_invariant CacheInv _ (fun s t s1 hs hb => ?_) _ _ st ?_ hr
  · unfold loadSlot at hb
    split at hb
    · cases hb; exact hs
    · exact loopE_invariant CacheInv _
        (fun a x a1 ha hx => resolveTexture_cacheInv env scene directory modelPath _ x a a1 ha hx)
        _ s s1 hs hb
  · exact ⟨fun c1 hc1 => (by cases hc1), fun t ht => (by cases ht)⟩

/-! ## The fish loop -/

theorem renderHUD_fishes (app : Application) : (renderHUD app).fishes = app.fishes := by
  unfold renderHUD; split <;> rfl

theorem renderHUD_randState (app : Application) :
    (renderHUD app).randState = app.randState := by
  unfold renderHUD; split <;> rfl

theorem renderHUD_cameraPosition (app : Application) :
    (renderHUD app).cameraPosition = app.cameraPosition := by
  unfold renderHUD; split <;> rfl

theorem renderHUD_fishCount (app : Application) :
    (renderHUD app).fishCount = app.fishCount := by
  unfold renderHUD; split <;> rfl

theorem renderHUD_inv (app : Application) (hc : app.fishCount = (app.fishes.length : Int))
    (hg : app.gameOver = true → app.fishes.length = 0) : GameInv (renderHUD app) := by
  unfold renderHUD
  split
  · rename_i h0
    refine ⟨hc, fun _ => ?_, fun _ => rfl⟩
    rw [hc] at h0
    exact_mod_cast h0
  · rename_i h0
    refine ⟨hc, hg, fun hl => ?_⟩
    rw [hc, hl] at h0
    exact absurd rfl h0

theorem get_middle (l pre : List Fish) (f : Fish) (fs : List Fish) (h : l = pre ++ f :: fs)
    (hlt : pre.length < l.length) : l.get ⟨pre.length, hlt⟩ = f := by
  subst h
  rw [List.get_eq_getElem, List.getElem_append_right (Nat.le_refl _)]
  simp

theorem updateLoop_spec (genv : GameEnv) (deltaTime : F32) :
    ∀ (rest pre : List Fish) (app : Application), app.fishes = pre ++ rest →
      (updateLoop genv deltaTime pre.length app).fishes =
          pre ++ (moveAll genv deltaTime rest app.randState).1.filter
            (fun f => !genv.inCatchRadius app.cameraPosition f) ∧
        (updateLoop genv deltaTime pre.length app).randState =
          (moveAll genv deltaTime rest app.randState).2 ∧
        (updateLoop genv deltaTime pre.length app).cameraPosition = app.cameraPosition ∧
        (GameInv app → GameInv (updateLoop genv deltaTime pre.length app)) := by
  intro rest
  induction rest with
  | nil =>
    intro pre app h
    have hn : ¬ pre.length < app.fishes.length := by rw [h]; simp
    rw [updateLoop, dif_neg hn]
    simp [moveAll, h]
  | cons f fs ih =>
    intro pre app h
    have hlt : pre.length < app.fishes.length := by rw [h]; simp
    have hget := get_middle app.fishes pre f fs h hlt
    rw [updateLoop, dif_pos hlt]
    simp only [hget]
    have hset : ∀ x, app.fishes.set pre.length x = pre ++ x :: fs := by
      intro x; rw [h]; simp
    have herase : ∀ x, (pre ++ x :: fs).eraseIdx pre.length = pre ++ fs := by
      intro x; simp [List.eraseIdx_append_of_length_le]
    rw [hset, herase]
    by_cases hc : genv.inCatchRadius app.cameraPosition
        (genv.moveFish deltaTime f app.randState).1 = true
    · rw [if_pos hc]
      have := ih pre (renderHUD { app with
          fishes := pre ++ fs, fishCount := app.fishCount - 1,
          randState := (genv.moveFish deltaTime f app.randState).2 })
        (by rw [renderHUD_fishes])
      simp only [renderHUD_randState, renderHUD_cameraPosition] at this
      obtain ⟨r1, r2, r3, r4⟩ := this
      refine ⟨?_, ?_, r3, fun hinv => r4 ?_⟩
      · rw [r1]; simp [moveAll, hc]
      · rw [r2]; simp [moveAll]
      · obtain ⟨i1, i2⟩ := hinv
        apply renderHUD_inv
        · simp only [i1, h]
          simp
          omega
        · intro hg
          have := i2.mp hg
          omega
    · rw [if_neg hc]
      have := ih (pre ++ [(genv.moveFish deltaTime f app.randState).1])
        { app with
          fishes := pre ++ (genv.moveFish deltaTime f app.randState).1 :: fs,
          randState := (genv.moveFish deltaTime f app.randState).2 }
        (by simp)
      simp only [List.length_append, List.length_singleton] at this
      obtain ⟨r1, r2, r3, r4⟩ := this
      refine ⟨?_, ?_, r3, fun hinv => r4 ?_⟩
      · rw [r1]; simp [moveAll, hc]
      · rw [r2]; simp [moveAll]
      · obtain ⟨i1, i2⟩ := hinv
        refine ⟨?_, ?_⟩
        · simp only [i1, h]; simp
        · simp only [i2, h]; simp

theorem moveAll_length (genv : GameEnv) (deltaTime : F32) :
    ∀ (fs : List Fish) (r : Nat), (moveAll genv deltaTime fs r).1.length = fs.length
  | [], _ => rfl
  | f :: fs, r => by
    simp only [moveAll, List.length_cons]
    rw [moveAll_length genv deltaTime fs]

theorem spawnLoop_fields (genv : GameEnv) :
    ∀ (n : Nat) (app : Application),
      (spawnLoop genv n app).fishes.length = app.fishes.length + n ∧
        (spawnLoop genv n app).gameOver = app.gameOver
  | 0, app => ⟨rfl, rfl⟩
  | n + 1, app => by
    obtain ⟨h1, h2⟩ := spawnLoop_fields genv n
      { app with fishes := app.fishes ++ [(genv.spawnFish app.randState).1],
                 randState := (genv.spawnFish app.randState).2 }
    simp only [spawnLoop]
    refine ⟨?_, h2⟩
    rw [h1]
    simp
    omega

theorem initFishes_inv (genv : GameEnv) (seed : Nat) :
    GameInv (initFishes genv seed Application.fresh) := by
  unfold initFishes
  obtain ⟨h1, h2⟩ := spawnLoop_fields genv GENERATE_FISH
    { Application.fresh with randState := seed }
  apply renderHUD_inv
  · simp only [h1]
    simp [Application.fresh]
  · intro hg
    simp only [h2] at hg
    cases hg

/-! ## Claims -/

/-- C1, refuted on the code: the scene of `fish.glb` has two meshes that use the same
material, which binds the embedded texture `*0` once. The cache handed to
`loadMaterialTextures` is the fresh local vector of each `processMesh` call, so the load
uploads the identity `fish.glb*0` twice, under the handles 1 and 2, instead of once. -/
theorem C1_shared_material_uploaded_twice :
    ∃ m w, Model.init envSharedMaterial "fish.glb".toList Model.fresh World.empty
        = .ok (true, m, w) ∧
      w.uploads.map (fun u => u.id) = [1, 2] ∧
      m.meshes.map (fun mesh => mesh.textures.map (fun t => (t.id, t.path))) =
        [[(1, "fish.glb*0".toList), (1, "fish.glb*0".toList)],
         [(2, "fish.glb*0".toList), (2, "fish.glb*0".toList)]] :=
  ⟨_, _, rfl, rfl, rfl⟩

/-- C2: a mesh whose material binds one embedded reference `*s` (the asset path holds no
`*`, `std::stoi` reads the index `k` from `s`, embedded texture `k` exists and its pixel
data is obtained) in two different slots `t1 < t2` and nothing else. The texture stage
generates one name and records exactly one upload; it returns the record of slot `t1`
followed by the record of slot `t2`, the second taken from the cache entry with the tag
of `t2`; `processMesh` returns, and every texture record of the mesh it builds carries
that one handle. -/
theorem C2_one_upload_for_two_slots (env : Env) (scene : aiScene) (directory path : Str)
    (mesh : aiMesh) (mat : aiMaterial) (w : World) (t1 t2 : Nat) (s : Str) (k : Nat)
    (aTex : aiTexture) (img : Image)
    (hpath : '*' ∉ path) (h12 : t1 < t2) (h2 : t2 ≤ aiTextureType_UNKNOWN)
    (hmat : scene.mMaterials.get? mesh.mMaterialIndex = some mat)
    (hbind : ∀ t, mat.textures t = if t = t1 ∨ t = t2 then ['*' :: s] else [])
    (hidx : stoi s = .ok (k : Int))
    (htex : scene.mTextures.get? k = some (some aTex))
    (hdec : embeddedData env aTex = some img) :
    ∃ st m, loadMaterialTextures env scene mat directory [] path w = .ok st ∧
      processMesh env scene directory path mesh w = .ok (m, st.world) ∧
      st.world.names = w.names + 1 ∧
      st.world.uploads = w.uploads ++
        [⟨w.names + 1, some (embeddedFormat img.nrComponents), img.width, img.height⟩] ∧
      st.textures =
        [⟨w.names + 1, env.aiTextureTypeToString t1, path ++ '*' :: s⟩,
         ⟨w.names + 1, env.aiTextureTypeToString t2, path ++ '*' :: s⟩] ∧
      st.local_textures_loaded =
        [⟨w.names + 1, env.aiTextureTypeToString t1, path ++ '*' :: s⟩] ∧
      m.textures = st.local_textures_loaded ++ st.textures ∧
      ∀ t ∈ m.textures, t.id = w.names + 1 := by
  have hun : ∀ (l : List Nat) (st : TexState), (∀ t ∈ l, t ≠ t1 ∧ t ≠ t2) →
      loopE (loadSlot env scene mat directory path) st l = .ok st := by
    intro l st hl
    refine loopE_loadSlot_unbound env scene mat directory path l st (fun t ht => ?_)
    rw [hbind t]
    simp [hl t ht]
  have hb1 : mat.textures t1 = ['*' :: s] := by rw [hbind t1]; simp
  have hb2 : mat.textures t2 = ['*' :: s] := by rw [hbind t2]; simp
  have hA := hun (List.range' 0 t1) ⟨[], [], w⟩ (by
    intro t ht
    rw [List.mem_range'_1] at ht
    constructor <;> omega)
  have hB := resolveTexture_embedded_fresh env scene directory path
    (env.aiTextureTypeToString t1) s ⟨[], [], w⟩ k aTex img hpath rfl hidx htex hdec
  rw [← loadSlot_single env scene mat directory path ⟨[], [], w⟩ t1 _ hb1] at hB
  simp only [List.nil_append] at hB
  have hC := fun st => hun (List.range' (t1 + 1) (t2 - t1 - 1)) st (by
    intro t ht
    rw [List.mem_range'_1] at ht
    constructor <;> omega)
  have hE := fun st => hun (List.range' (t2 + 1) (18 - t2)) st (by
    intro t ht
    rw [List.mem_range'_1] at ht
    constructor <;> omega)
  have hD := fun (w1 : World) => resolveTexture_cached env scene directory path
    (env.aiTextureTypeToString t2) ('*' :: s)
    ⟨[⟨w.names + 1, env.aiTextureTypeToString t1, path ++ '*' :: s⟩],
     [⟨w.names + 1, env.aiTextureTypeToString t1, path ++ '*' :: s⟩], w1⟩
    ⟨w.names + 1, env.aiTextureTypeToString t1, path ++ '*' :: s⟩
    (by simp [cacheLookup, normalizeKey_marker])
  simp only [← loadSlot_single env scene mat directory path _ t2 _ hb2,
    normalizeKey_marker] at hD
  have hload : loadMaterialTextures env scene mat directory [] path w =
      .ok ⟨[⟨w.names + 1, env.aiTextureTypeToString t1, path ++ '*' :: s⟩,
            ⟨w.names + 1, env.aiTextureTypeToString t2, path ++ '*' :: s⟩],
           [⟨w.names + 1, env.aiTextureTypeToString t1, path ++ '*' :: s⟩],
           ⟨w.names + 1, w.uploads ++
             [⟨w.names + 1, some (embeddedFormat img.nrComponents), img.width,
               img.height⟩], w.cout⟩⟩ := by
    unfold loadMaterialTextures
    rw [slotRange_split t1 t2 h12 h2, loopE_append, hA]
    simp only [loopE, hB, loopE_append, hC, hD, hE, List.singleton_append]
  refine ⟨_, ⟨processVertices mesh, processIndices mesh,
    [⟨w.names + 1, env.aiTextureTypeToString t1, path ++ '*' :: s⟩] ++
      [⟨w.names + 1, env.aiTextureTypeToString t1, path ++ '*' :: s⟩,
       ⟨w.names + 1, env.aiTextureTypeToString t2, path ++ '*' :: s⟩]⟩,
    hload, ?_, rfl, rfl, rfl, rfl, rfl, ?_⟩
  · unfold processMesh
    rw [hmat]
    simp only [hload]
  · intro t ht
    simp only [List.singleton_append, List.mem_cons, List.mem_singleton] at ht
    rcases ht with rfl | rfl | rfl | h
    · rfl
    · rfl
    · rfl
    · cases h

/-- Witness of C2: `*0` bound in the diffuse and in the specular slot of the only
material of `fish.glb`. -/
theorem C2_one_upload_witness :
    ∃ st m, loadMaterialTextures envTwoSlots sceneTwoSlots
          (exMaterial2 aiTextureType_DIFFUSE "*0".toList aiTextureType_SPECULAR "*0".toList)
          [] [] "fish.glb".toList World.empty = .ok st ∧
      processMesh envTwoSlots sceneTwoSlots [] "fish.glb".toList exTriangle World.empty
        = .ok (m, st.world) ∧
      st.world.names = 0 + 1 ∧
      st.world.uploads = [] ++ [⟨0 + 1, some (embeddedFormat 4), 2, 2⟩] ∧
      st.textures =
        [⟨0 + 1, "Diffuse".toList, "fish.glb".toList ++ '*' :: "0".toList⟩,
         ⟨0 + 1, "Specular".toList, "fish.glb".toList ++ '*' :: "0".toList⟩] ∧
      st.local_textures_loaded =
        [⟨0 + 1, "Diffuse".toList, "fish.glb".toList ++ '*' :: "0".toList⟩] ∧
      m.textures = st.local_textures_loaded ++ st.textures ∧
      ∀ t ∈ m.textures, t.id = 0 + 1 :=
  C2_one_upload_for_two_slots envTwoSlots sceneTwoSlots [] "fish.glb".toList exTriangle
    (exMaterial2 aiTextureType_DIFFUSE "*0".toList aiTextureType_SPECULAR "*0".toList)
    World.empty aiTextureType_DIFFUSE aiTextureType_SPECULAR "0".toList 0
    ⟨4, 0, some [137, 80, 78, 71]⟩ ⟨2, 2, 4⟩
    (by decide) (by decide) (by decide) rfl
    (by
      intro t
      by_cases h1 : t = aiTextureType_DIFFUSE
      · subst h1; rfl
      · by_cases h2 : t = aiTextureType_SPECULAR
        · subst h2; rfl
        · simp only [exMaterial2, h1, h2, if_false, false_or])
    rfl rfl rfl

/-- C3, refuted on the code: the material binds `a.png` in the specular slot and `b.png`
in the height slot, both decode. `loadMaterialTextures` returns the two records, specular
then height, but the mesh built by `processMesh` lists four: the local vector that
served as cache already holds the two records when the returned ones are appended. -/
theorem C3_specular_height_listed_twice :
    ∃ m w, Model.init envSpecularHeight "models/fish.obj".toList Model.fresh World.empty
        = .ok (true, m, w) ∧
      m.meshes.map (fun mesh => mesh.textures.map (fun t => (t.id, t.type))) =
        [[(1, "Specular".toList), (2, "Height".toList),
          (1, "Specular".toList), (2, "Height".toList)]] ∧
      (loadMaterialTextures envSpecularHeight sceneSpecularHeight
          (exMaterial2 aiTextureType_SPECULAR "a.png".toList
            aiTextureType_HEIGHT "b.png".toList)
          "models".toList [] "models/fish.obj".toList World.empty).toOption.map
        (fun st => st.textures.map (fun t => (t.id, t.type))) =
        some [(1, "Specular".toList), (2, "Height".toList)] :=
  ⟨_, _, rfl, rfl, rfl⟩

/-- C4: `processNode` visits the mesh references of a node tree in depth-first pre-order
(the node's own references in index order, then each child in child-list order): it runs
exactly the mesh loop over `preorder node`; whenever it returns, the model's mesh list
is the old list followed by one mesh per reference of `preorder node`, each built from
the scene mesh at that reference; and for the example tree N0 (2 meshes), N1 (1 mesh),
N2 (no mesh, one child with 1 mesh) the load returns the four meshes in the order
N0.mesh0, N0.mesh1, N1.mesh0, N2.child.mesh0. -/
theorem C4_processNode_preorder (env : Env) (scene : aiScene) (directory path : Str)
    (node : aiNode) (st : Model × World) :
    processNode env scene directory path node st =
        loopE (pushMesh env scene directory path) st (preorder node) ∧
      (∀ m w, processNode env scene directory path node st = .ok (m, w) →
        ∃ built, m.meshes = st.1.meshes ++ built ∧
          List.Forall₂ (BuiltFrom scene) (preorder node) built) ∧
      preorder exTree = [2, 0, 3, 1] ∧
      (Model.init envTree "reef.glb".toList Model.fresh World.empty).toOption.map
          (fun r => r.2.1.meshes.map (fun mesh => mesh.vertices.map (fun v => v.Position)))
        = some [[⟨12, 12, 12⟩], [⟨10, 10, 10⟩], [⟨13, 13, 13⟩], [⟨11, 11, 11⟩]] := by
  refine ⟨processNode_preorder env scene directory path node st, ?_, rfl, rfl⟩
  intro m w h
  rw [processNode_preorder] at h
  exact loopE_pushMesh_built env scene directory path (preorder node) st m w h

/-- C5, refuted on the code: a reference that begins with the marker but carries no
parsable index (`*abc`, `*`), or the reference `*0` under an asset path that contains the
marker (`my*fish.glb`), makes `std::stoi` throw `invalid_argument`; nothing catches it, so
the exception leaves `Model::init` instead of the slot being skipped. -/
theorem C5_malformed_reference_raises :
    Model.init (envOneRef "*abc".toList) "fish.glb".toList Model.fresh World.empty
        = .error .invalid_argument ∧
      Model.init (envOneRef "*".toList) "fish.glb".toList Model.fresh World.empty
        = .error .invalid_argument ∧
      Model.init (envOneRef "*0".toList) "my*fish.glb".toList Model.fresh World.empty
        = .error .invalid_argument :=
  ⟨rfl, rfl, rfl⟩

/-- C6, refuted on the code: the material binds the external reference `missing.png` and
no image file exists. `loadTexture` returns the name it generated before the failed
decode, so the test `if (texID)` passes: the returned list and the cache both receive a
record with handle 1, although nothing was uploaded. -/
theorem C6_missing_file_still_listed :
    envSpecularHeight.stbi_load "models/missing.png".toList = none ∧
      loadMaterialTextures envSpecularHeight (sceneOneRef "missing.png".toList)
          (exMaterial1 aiTextureType_DIFFUSE "missing.png".toList)
          "models".toList [] "models/fish.obj".toList World.empty =
        .ok ⟨[⟨1, "Diffuse".toList, "missing.png".toList⟩],
             [⟨1, "Diffuse".toList, "missing.png".toList⟩],
             ⟨1, [], [.textureFailed "models/missing.png".toList]⟩⟩ :=
  ⟨rfl, rfl⟩

/-- C7: when the import fails (no scene, a scene flagged incomplete, or a scene without
root node) `loadModel` returns normally, leaves the mesh list of any model exactly as it
was, generates no texture name and uploads nothing (the walker is not run), and prints
the importer diagnostic; `Model::init` on a fresh model returns `true` with an empty mesh
list. -/
theorem C7_import_failure_leaves_model_empty (env : Env) (path : Str) (w : World)
    (h : env.ReadFile path = none ∨
      ∃ scene, env.ReadFile path = some scene ∧
        (scene.mFlags &&& AI_SCENE_FLAGS_INCOMPLETE ≠ 0 ∨ scene.mRootNode = none)) :
    (∀ m : Model, loadModel env path (m, w) =
        .ok (m, ⟨w.names, w.uploads, w.cout ++ [.assimpError]⟩)) ∧
      Model.init env path Model.fresh w =
        .ok (true, ⟨[]⟩, ⟨w.names, w.uploads, w.cout ++ [.assimpError]⟩) := by
  have key : ∀ m : Model, loadModel env path (m, w) =
      .ok (m, ⟨w.names, w.uploads, w.cout ++ [.assimpError]⟩) := by
    intro m
    unfold loadModel
    rcases h with h | ⟨scene, hs, hflag | hroot⟩
    · rw [h]
    · rw [hs]
      simp only []
      rw [if_pos hflag]
    · rw [hs]
      simp only [hroot]
      split <;> rfl
  refine ⟨key, ?_⟩
  unfold Model.init
  rw [key]
  rfl

/-- Witness of C7: with no importable asset, loading `nothing.glb` into a fresh model
returns `true` and the mesh list is empty. -/
theorem C7_import_failure_witness :
    (∀ m : Model, loadModel envNoAsset "nothing.glb".toList (m, World.empty) =
        .ok (m, ⟨0, [], [.assimpError]⟩)) ∧
      Model.init envNoAsset "nothing.glb".toList Model.fresh World.empty =
        .ok (true, ⟨[]⟩, ⟨0, [], [.assimpError]⟩) :=
  C7_import_failure_leaves_model_empty envNoAsset "nothing.glb".toList World.empty
    (Or.inl rfl)

/-- C8: two fresh models are loaded one after the other, in the same GL context, from two
different asset paths. The identities of a same embedded reference (`*0` or any other)
differ between the two assets; every texture record of either model carries a handle
generated during that model's own load, and when its identity is the asset's embedded key
an upload for that handle was made during that same load; hence no handle of the second
model is a handle of the first. -/
theorem C8_models_share_no_handle (env : Env) (p1 p2 : Str) (w0 w1 w2 : World)
    (b1 b2 : Bool) (m1 m2 : Model) (hne : p1 ≠ p2)
    (h1 : Model.init env p1 Model.fresh w0 = .ok (b1, m1, w1))
    (h2 : Model.init env p2 Model.fresh w1 = .ok (b2, m2, w2)) :
    (∀ r, normalizeKey p1 ('*' :: r) ≠ normalizeKey p2 ('*' :: r)) ∧
      (∀ mesh ∈ m1.meshes, ∀ t ∈ mesh.textures,
        w0.names < t.id ∧ t.id ≤ w1.names ∧
          (∀ r, t.path = normalizeKey p1 ('*' :: r) →
            ∃ u ∈ newUploads w0 w1, u.id = t.id)) ∧
      (∀ mesh ∈ m2.meshes, ∀ t ∈ mesh.textures,
        w1.names < t.id ∧ t.id ≤ w2.names ∧
          (∀ r, t.path = normalizeKey p2 ('*' :: r) →
            ∃ u ∈ newUploads w1 w2, u.id = t.id)) ∧
      (∀ mesh1 ∈ m1.meshes, ∀ t1 ∈ mesh1.textures,
        ∀ mesh2 ∈ m2.meshes, ∀ t2 ∈ mesh2.textures, t1.id ≠ t2.id) := by
  have o1 := init_owned env p1 w0 b1 m1 w1 h1
  have o2 := init_owned env p2 w1 b2 m2 w2 h2
  refine ⟨fun r h => hne (normalizeKey_marker_injective p1 p2 r h), o1, o2, ?_⟩
  intro mesh1 hm1 t1 ht1 mesh2 hm2 t2 ht2 heq
  have a := (o1 mesh1 hm1 t1 ht1).2.1
  have b := (o2 mesh2 hm2 t2 ht2).1
  omega

/-- Witness of C8: `shark.glb` and `fish.glb` both bind the embedded texture `*0`; the
first load yields handle 1 under the identity `shark.glb*0`, the second handle 2 under
`fish.glb*0`, each with its own upload. -/
theorem C8_models_share_no_handle_witness :
    ∃ m1 w1 m2 w2,
      Model.init (envOneRef "*0".toList) "shark.glb".toList Model.fresh World.empty
        = .ok (true, m1, w1) ∧
      Model.init (envOneRef "*0".toList) "fish.glb".toList Model.fresh w1
        = .ok (true, m2, w2) ∧
      m1.meshes.map (fun mesh => mesh.textures.map (fun t => (t.id, t.path))) =
        [[(1, "shark.glb*0".toList), (1, "shark.glb*0".toList)]] ∧
      m2.meshes.map (fun mesh => mesh.textures.map (fun t => (t.id, t.path))) =
        [[(2, "fish.glb*0".toList), (2, "fish.glb*0".toList)]] ∧
      newUploads World.empty w1 = [⟨1, some .RGBA, 2, 2⟩] ∧
      newUploads w1 w2 = [⟨2, some .RGBA, 2, 2⟩] ∧
      ((∀ r, normalizeKey "shark.glb".toList ('*' :: r) ≠
          normalizeKey "fish.glb".toList ('*' :: r)) ∧
        (∀ mesh ∈ m1.meshes, ∀ t ∈ mesh.textures,
          World.empty.names < t.id ∧ t.id ≤ w1.names ∧
            (∀ r, t.path = normalizeKey "shark.glb".toList ('*' :: r) →
              ∃ u ∈ newUploads World.empty w1, u.id = t.id)) ∧
        (∀ mesh ∈ m2.meshes, ∀ t ∈ mesh.textures,
          w1.names < t.id ∧ t.id ≤ w2.names ∧
            (∀ r, t.path = normalizeKey "fish.glb".toList ('*' :: r) →
              ∃ u ∈ newUploads w1 w2, u.id = t.id)) ∧
        (∀ mesh1 ∈ m1.meshes, ∀ t1 ∈ mesh1.textures,
          ∀ mesh2 ∈ m2.meshes, ∀ t2 ∈ mesh2.textures, t1.id ≠ t2.id)) :=
  ⟨_, _, _, _, rfl, rfl, rfl, rfl, rfl, rfl,
    C8_models_share_no_handle (envOneRef "*0".toList) "shark.glb".toList "fish.glb".toList
      World.empty _ _ true true _ _ (by decide) rfl rfl⟩

/-- C9, refuted on the code: the triangle declares no per-vertex normals and its material
binds the reference `*abc`. The vertex loop builds its three vertices, positions copied
and normals zero, but `processMesh` goes on to the texture stage, where `std::stoi`
throws `invalid_argument`: `processMesh` returns no mesh and the exception leaves
`Model::init`, instead of the mesh being produced without error. -/
theorem C9_mesh_without_normals_raises :
    exTriangle.mNormals = none ∧
      (processVertices exTriangle).map (fun v => (v.Position, v.Normal)) =
        [(⟨1, 2, 3⟩, Vec3.zero), (⟨4, 5, 6⟩, Vec3.zero), (⟨7, 8, 9⟩, Vec3.zero)] ∧
      (sceneOneRef "*abc".toList).mMeshes = [exTriangle] ∧
      processMesh (envOneRef "*abc".toList) (sceneOneRef "*abc".toList)
          (assetDirectory "fish.glb".toList) "fish.glb".toList exTriangle World.empty
        = .error .invalid_argument ∧
      Model.init (envOneRef "*abc".toList) "fish.glb".toList Model.fresh World.empty
        = .error .invalid_argument :=
  ⟨rfl, rfl, rfl, rfl, rfl⟩

/-- C10, refuted as stated: the asset `models/fish.obj` binds the relative references
`a.png` and `b.png`; the decoder is handed `models/a.png` and `models/b.png` (the only
image files that exist, and both uploads take place), while the records and the cache
entries carry the identities `a.png` and `b.png`, which differ from the resolved paths. -/
theorem C10_identity_differs_from_resolved_path :
    ∃ st, loadMaterialTextures envSpecularHeight sceneSpecularHeight
          (exMaterial2 aiTextureType_SPECULAR "a.png".toList
            aiTextureType_HEIGHT "b.png".toList)
          (assetDirectory "models/fish.obj".toList) [] "models/fish.obj".toList
          World.empty = .ok st ∧
      st.textures.map (fun t => t.path) = ["a.png".toList, "b.png".toList] ∧
      st.local_textures_loaded.map (fun t => t.path) = ["a.png".toList, "b.png".toList] ∧
      st.world.uploads.map (fun u => u.id) = [1, 2] ∧
      st.textures.map (fun t => fullPath (assetDirectory "models/fish.obj".toList) t.path) =
        ["models/a.png".toList, "models/b.png".toList] ∧
      st.textures.map (fun t =>
          decide (t.path = fullPath (assetDirectory "models/fish.obj".toList) t.path)) =
        [false, false] ∧
      envSpecularHeight.stbi_load "a.png".toList = none :=
  ⟨_, rfl, rfl, rfl, rfl, rfl, rfl, rfl⟩

/-- C10, amended: for an external reference (non-empty, not beginning with the marker,
not taken for an embedded key, not yet cached) whose file decodes, the identity stored in
the produced record and in the new cache entry is the reference string exactly as the
material gives it, while the decoder receives `fullPath directory str`; the two agree
exactly when the reference contains `:` or the directory is empty, and otherwise the
decoder's path is the directory joined to the reference with `/`. -/
theorem C10_external_identity_is_reference (env : Env) (scene : aiScene)
    (directory modelPath typeName str : Str) (st : TexState) (img : Image)
    (hne : str ≠ []) (hstar : str.head? ≠ some '*')
    (hemb : isEmbeddedKey modelPath str = false)
    (hcache : cacheLookup st.local_textures_loaded str = none)
    (hdec : env.stbi_load (fullPath directory str) = some img) :
    resolveTexture env scene directory modelPath typeName str st =
        .ok { textures := st.textures ++ [⟨st.world.names + 1, typeName, str⟩],
              local_textures_loaded :=
                st.local_textures_loaded ++ [⟨st.world.names + 1, typeName, str⟩],
              world := glTexImage2D (glGenTextures st.world).2 (st.world.names + 1)
                (loadTextureFormat img.nrComponents) img.width img.height } ∧
      (fullPath directory str = str ↔
        ((findStr str [':']).isSome = true ∨ directory = [])) ∧
      (fullPath directory str ≠ str → fullPath directory str = directory ++ ['/'] ++ str) := by
  refine ⟨?_, fullPath_eq_self_iff directory str, ?_⟩
  · rw [resolveTexture_external env scene directory modelPath typeName str st hne hstar
      hemb hcache, loadExternal_decoded env directory typeName str st img hdec]
  · intro h
    unfold fullPath at h ⊢
    split
    · rfl
    · rename_i hc
      rw [if_neg hc] at h
      exact absurd rfl h

/-- Witness of C10 (amended): `a.png` under the directory `models`. -/
theorem C10_external_identity_witness :
    resolveTexture envSpecularHeight sceneSpecularHeight "models".toList
        "models/fish.obj".toList "Specular".toList "a.png".toList ⟨[], [], World.empty⟩ =
        .ok { textures := [⟨1, "Specular".toList, "a.png".toList⟩],
              local_textures_loaded := [⟨1, "Specular".toList, "a.png".toList⟩],
              world := ⟨1, [⟨1, some .RGB, 8, 8⟩], []⟩ } ∧
      (fullPath "models".toList "a.png".toList = "a.png".toList ↔
        ((findStr "a.png".toList [':']).isSome = true ∨ "models".toList = [])) ∧
      (fullPath "models".toList "a.png".toList ≠ "a.png".toList →
        fullPath "models".toList "a.png".toList = "models/a.png".toList) :=
  C10_external_identity_is_reference envSpecularHeight sceneSpecularHeight "models".toList
    "models/fish.obj".toList "Specular".toList "a.png".toList ⟨[], [], World.empty⟩
    ⟨8, 8, 3⟩ (by decide) (by decide) rfl rfl rfl

/-- C11: in every mesh that `processMesh` returns, whatever the material binds and
whichever decodes succeed or fail, two texture records of the final texture list with the
same identity string carry the same handle. -/
theorem C11_same_identity_same_handle (env : Env) (scene : aiScene) (directory path : Str)
    (mesh : aiMesh) (w w1 : World) (m : Mesh)
    (h : processMesh env scene directory path mesh w = .ok (m, w1)) :
    ∀ t1 ∈ m.textures, ∀ t2 ∈ m.textures, t1.path = t2.path → t1.id = t2.id := by
  unfold processMesh at h
  split at h
  · cases h
  · rename_i mat hmat
    split at h
    · cases h
    · rename_i st hst
      cases h
      obtain ⟨h1, h2⟩ := loadMaterialTextures_cacheInv env scene mat directory path w st hst
      have rep : ∀ t ∈ st.local_textures_loaded ++ st.textures,
          ∃ c ∈ st.local_textures_loaded, c.path = t.path ∧ c.id = t.id := by
        intro t ht
        rcases List.mem_append.mp ht with ht | ht
        · exact ⟨t, ht, rfl, rfl⟩
        · exact h2 t ht
      intro t1 ht1 t2 ht2 hp
      obtain ⟨c1, hc1, p1, i1⟩ := rep t1 ht1
      obtain ⟨c2, hc2, p2, i2⟩ := rep t2 ht2
      rw [← i1, ← i2]
      exact h1 c1 hc1 c2 hc2 (by rw [p1, p2, hp])

/-- Witness of C11: a mesh whose material binds `*0` and `a.png` in the diffuse slot and
`*0`, `a.png` and the missing `nope.png` in the specular slot. -/
theorem C11_same_identity_witness :
    ∃ m w1, processMesh envMixed sceneMixed "models".toList "models/fish.obj".toList
          exTriangle World.empty = .ok (m, w1) ∧
      m.textures.map (fun t => (t.id, t.path)) =
        [(1, "models/fish.obj*0".toList), (2, "a.png".toList), (3, "nope.png".toList),
         (1, "models/fish.obj*0".toList), (2, "a.png".toList),
         (1, "models/fish.obj*0".toList), (2, "a.png".toList), (3, "nope.png".toList)] ∧
      (∀ t1 ∈ m.textures, ∀ t2 ∈ m.textures, t1.path = t2.path → t1.id = t2.id) :=
  ⟨_, _, rfl, rfl,
    C11_same_identity_same_handle envMixed sceneMixed "models".toList
      "models/fish.obj".toList exTriangle World.empty _ _ rfl⟩

/-- C12, refuted on the code: for the asset path `fish.obj`, which holds no `/`,
`find_last_of` gives `npos` and `substr(0, npos)` keeps the whole string, so `directory`
is `fish.obj` and not empty: the relative reference `a.png` is handed to the decoder as
`fish.obj/a.png` (the load prints that this path failed), although the file `a.png`
exists and the reference taken verbatim would decode. -/
theorem C12_bare_asset_name_used_as_directory :
    find_last_of "fish.obj".toList '/' = none ∧
      assetDirectory "fish.obj".toList = "fish.obj".toList ∧
      fullPath (assetDirectory "fish.obj".toList) "a.png".toList = "fish.obj/a.png".toList ∧
      envBareName.stbi_load "a.png".toList = some ⟨8, 8, 3⟩ ∧
      (Model.init envBareName "fish.obj".toList Model.fresh World.empty).toOption.map
          (fun r => (r.2.2.cout, r.2.2.uploads)) =
        some ([.textureFailed "fish.obj/a.png".toList], []) :=
  ⟨rfl, rfl, rfl, rfl, rfl⟩

/-- C13, refuted as stated: for a decoded image of one channel the external upload of
`loadTexture` chooses the red format while the embedded upload chooses the 4-channel
format. -/
theorem C13_one_channel_formats_differ :
    envGray.stbi_load "gray.png".toList = some ⟨8, 8, 1⟩ ∧
      embeddedData envGray ⟨4, 0, some [137, 80, 78, 71]⟩ = some ⟨8, 8, 1⟩ ∧
      (loadTexture envGray "gray.png".toList World.empty).2.uploads =
        [⟨1, some .RED, 8, 8⟩] ∧
      (loadEmbedded envGray (sceneOneRef "*0".toList) "Diffuse".toList "fish.glb*0".toList 0
          ⟨[], [], World.empty⟩).world.uploads = [⟨1, some .RGBA, 8, 8⟩] :=
  ⟨rfl, rfl, rfl, rfl⟩

/-- C13, amended: the external upload records the format `loadTextureFormat n` and the
embedded upload the format `embeddedFormat n` of the decoded channel count `n`. The
embedded one is the 3-channel format for `n = 3` and the 4-channel format for every other
`n`; the external one is the 3-channel format for `n = 3`, the 4-channel format for
`n = 4` and the red format for `n = 1`; for `n = 3` and `n = 4` the two agree. -/
theorem C13_formats_agree_for_three_and_four (env : Env) (path : Str) (w : World)
    (imgF : Image) (scene : aiScene) (typeName texPath : Str) (k : Nat) (st : TexState)
    (aTex : aiTexture) (imgE : Image)
    (hfile : env.stbi_load path = some imgF)
    (htex : scene.mTextures.get? k = some (some aTex))
    (hmem : embeddedData env aTex = some imgE) :
    (loadTexture env path w).2.uploads =
        w.uploads ++
          [⟨w.names + 1, loadTextureFormat imgF.nrComponents, imgF.width, imgF.height⟩] ∧
      (loadEmbedded env scene typeName texPath (k : Int) st).world.uploads =
        st.world.uploads ++
          [⟨st.world.names + 1, some (embeddedFormat imgE.nrComponents), imgE.width,
            imgE.height⟩] ∧
      (∀ n, embeddedFormat n = if n = 3 then GLFormat.RGB else GLFormat.RGBA) ∧
      loadTextureFormat 3 = some .RGB ∧
      loadTextureFormat 4 = some .RGBA ∧
      loadTextureFormat 1 = some .RED ∧
      (∀ n, n = 3 ∨ n = 4 → loadTextureFormat n = some (embeddedFormat n)) := by
  refine ⟨?_, ?_, fun n => rfl, rfl, rfl, rfl, ?_⟩
  · simp [loadTexture, hfile, glGenTextures, glTexImage2D]
  · rw [loadEmbedded_decoded env scene typeName texPath k st aTex imgE htex hmem]
  · intro n hn
    rcases hn with rfl | rfl <;> rfl

/-- Witness of C13 (amended): the file `models/a.png` decodes to three channels, the
embedded blob to four. -/
theorem C13_formats_agree_witness :
    (loadTexture envSpecularHeight "models/a.png".toList World.empty).2.uploads =
        [] ++ [⟨0 + 1, loadTextureFormat 3, 8, 8⟩] ∧
      (loadEmbedded envSpecularHeight (sceneOneRef "*0".toList) "Diffuse".toList
          "fish.glb*0".toList ((0 : Nat) : Int) ⟨[], [], World.empty⟩).world.uploads =
        [] ++ [⟨0 + 1, some (embeddedFormat 4), 2, 2⟩] ∧
      (∀ n, embeddedFormat n = if n = 3 then GLFormat.RGB else GLFormat.RGBA) ∧
      loadTextureFormat 3 = some .RGB ∧
      loadTextureFormat 4 = some .RGBA ∧
      loadTextureFormat 1 = some .RED ∧
      (∀ n, n = 3 ∨ n = 4 → loadTextureFormat n = some (embeddedFormat n)) :=
  C13_formats_agree_for_three_and_four envSpecularHeight "models/a.png".toList World.empty
    ⟨8, 8, 3⟩ (sceneOneRef "*0".toList) "Diffuse".toList "fish.glb*0".toList 0
    ⟨[], [], World.empty⟩ ⟨4, 0, some [137, 80, 78, 71]⟩ ⟨2, 2, 4⟩ rfl rfl rfl

/-- C14: in every game state reached from a fresh `Application` by one `initFishes` call
and any number of `updateFishes` steps, with any camera position and frame time at each
step, `fishCount` equals the number of fish in the list and `gameOver` is true exactly
when that number is zero. One `updateFishes` step, from any state, always ends, and leaves
exactly the fish that are outside the catch radius after their move, in their original
order: the list after the step is the list of the moved fish, one per fish before the
step, filtered by the catch test. -/
theorem C14_fish_count_and_catches (genv : GameEnv) :
    (∀ app, Reachable genv app →
        app.fishCount = (app.fishes.length : Int) ∧
          (app.gameOver = true ↔ app.fishes.length = 0)) ∧
      (∀ (app : Application) (deltaTime : F32),
        (updateFishes genv deltaTime app).fishes =
            (moveAll genv deltaTime app.fishes app.randState).1.filter
              (fun f => !genv.inCatchRadius app.cameraPosition f) ∧
          (moveAll genv deltaTime app.fishes app.randState).1.length = app.fishes.length ∧
          (updateFishes genv deltaTime app).cameraPosition = app.cameraPosition) := by
  constructor
  · intro app hr
    induction hr with
    | init seed => exact initFishes_inv genv seed
    | step app cam deltaTime _ ih =>
      have h := updateLoop_spec genv deltaTime app.fishes []
        { app with cameraPosition := cam } (by simp)
      exact h.2.2.2 ih
  · intro app deltaTime
    have h := updateLoop_spec genv deltaTime app.fishes [] app (by simp)
    refine ⟨?_, moveAll_length genv deltaTime app.fishes app.randState, h.2.2.1⟩
    simpa using h.1

end HungryFish
